import Mathlib

/-!
# Smart Document Assistant front-ends: a verification development

Shallow embedding of the two browser front-ends of the repository:

* `frontend_rag/script.js`, the vanilla single-page app (reactive store,
  upload handler, chat handler, server-sent-events reader);
* `smart-document-assistant/frontend/src`, the React app (`LanguageContext`,
  `ChatPage`, `Chat`, `services/api.js`).

JavaScript strings are sequences of UTF-16 code units, modelled as `List Nat`.
Asynchronous functions are cut at their `await` points: the code up to the
first `await` is one function, and every way the awaited promise can settle is
an event handled by a continuation function.
-/

namespace SmartDoc

/-! ## JavaScript strings -/

/-- A JavaScript string: its UTF-16 code units. -/
abbrev JsString := List Nat

/-- UTF-16 encoding of one Unicode scalar value. -/
def utf16 (c : Char) : List Nat :=
  if c.toNat < 65536 then [c.toNat]
  else [55296 + (c.toNat - 65536) / 1024, 56320 + (c.toNat - 65536) % 1024]

/-- UTF-16 encoding of a list of characters. -/
def utf16s : List Char → JsString
  | [] => []
  | c :: cs => utf16 c ++ utf16s cs

/-- A string literal of the source, as a JavaScript string. -/
def js (s : String) : JsString := utf16s s.toList

/-- `s.split(sep)` for a one-unit separator: the pieces between the separators
(always at least one piece). -/
def split (sep : Nat) : JsString → List JsString
  | [] => [[]]
  | c :: cs =>
    if c = sep then [] :: split sep cs
    else match split sep cs with
      | [] => [[c]]
      | l :: ls => (c :: l) :: ls

/-- `s.startsWith(p)`. -/
def startsWith : JsString → JsString → Bool
  | _, [] => true
  | [], _ :: _ => false
  | c :: cs, p :: ps => decide (c = p) && startsWith cs ps

/-- `s.slice(n)` for `0 ≤ n`. -/
def slice (n : Nat) (s : JsString) : JsString := s.drop n

/-- `s.includes(p)`: `p` occurs in `s` as a contiguous block. -/
def includes : JsString → JsString → Bool
  | [], p => startsWith [] p
  | c :: cs, p => startsWith (c :: cs) p || includes cs p

/-- Code units removed by `String.prototype.trim`: WhiteSpace and
LineTerminator of ECMA-262. -/
def isTrimUnit (c : Nat) : Bool :=
  c = 9 || c = 10 || c = 11 || c = 12 || c = 13 || c = 32 || c = 160 ||
  c = 5760 || (8192 ≤ c && c ≤ 8202) || c = 8232 || c = 8233 || c = 8239 ||
  c = 8287 || c = 12288 || c = 65279

/-- `s.trimStart()`. -/
def trimStart : JsString → JsString
  | [] => []
  | c :: cs => if isTrimUnit c then trimStart cs else c :: cs

/-- `s.trim()`. -/
def trim (s : JsString) : JsString :=
  (trimStart (trimStart s).reverse).reverse

/-! ## JSON values and `JSON.parse` -/

/-- A value produced by `JSON.parse`.  A number keeps its literal: its
floating-point reading is supplied by `NumberSemantics`. -/
inductive JsonValue where
  | null : JsonValue
  | bool (b : Bool) : JsonValue
  | num (lit : JsString) : JsonValue
  | str (s : JsString) : JsonValue
  | arr (items : List JsonValue) : JsonValue
  | obj (members : List (JsString × JsonValue)) : JsonValue

/-- The runtime's IEEE-754 reading of a JSON number literal: whether the
resulting Number is `0` (falsy), and its `ToString`.  Floating point is not
modelled here, so every definition that inspects a number takes this reading
as an argument and every theorem holds for all such readings. -/
structure NumberSemantics where
  isZero : JsString → Bool
  toStr : JsString → JsString

/-- The reading that is exact on short plain integer literals such as `42`:
zero when every digit is `0`, printed as written. -/
def plainNumbers : NumberSemantics where
  isZero := fun lit => lit.all (fun c => c = 48 || c = 45)
  toStr := fun lit => lit

/-- Skip JSON whitespace (space, tab, line feed, carriage return). -/
def skipWs : JsString → JsString
  | [] => []
  | c :: cs => if c = 32 ∨ c = 9 ∨ c = 10 ∨ c = 13 then skipWs cs else c :: cs

/-- Is the code unit an ASCII digit. -/
def isDigit (c : Nat) : Bool := 48 ≤ c && c ≤ 57

/-- Longest prefix of digits, and the rest. -/
def takeDigits : JsString → JsString × JsString
  | [] => ([], [])
  | c :: cs =>
    if isDigit c then ((takeDigits cs).1.cons c, (takeDigits cs).2)
    else ([], c :: cs)

/-- Value of a hexadecimal digit. -/
def hexVal (c : Nat) : Option Nat :=
  if 48 ≤ c ∧ c ≤ 57 then some (c - 48)
  else if 97 ≤ c ∧ c ≤ 102 then some (c - 87)
  else if 65 ≤ c ∧ c ≤ 70 then some (c - 55)
  else none

/-- The JSON `int` production: `0`, or a non-zero digit followed by digits. -/
def parseInt (s : JsString) : Option (JsString × JsString) :=
  match s with
  | [] => none
  | c :: cs =>
    if c = 48 then some ([48], cs)
    else if isDigit c then some (c :: (takeDigits cs).1, (takeDigits cs).2)
    else none

/-- The optional JSON `frac` production. -/
def parseFrac (s : JsString) : Option (JsString × JsString) :=
  match s with
  | 46 :: cs =>
    match takeDigits cs with
    | ([], _) => none
    | (ds, rest) => some (46 :: ds, rest)
  | _ => some ([], s)

/-- The optional JSON `exp` production. -/
def parseExp (s : JsString) : Option (JsString × JsString) :=
  match s with
  | [] => some ([], [])
  | e :: cs =>
    if e = 101 ∨ e = 69 then
      match cs with
      | [] => none
      | sg :: cs2 =>
        if sg = 43 ∨ sg = 45 then
          match takeDigits cs2 with
          | ([], _) => none
          | (ds, rest) => some (e :: sg :: ds, rest)
        else
          match takeDigits (sg :: cs2) with
          | ([], _) => none
          | (ds, rest) => some (e :: ds, rest)
    else some ([], e :: cs)

/-- A JSON number literal at the head of the input, and the rest. -/
def parseNumber (s : JsString) : Option (JsString × JsString) :=
  let (sign, s1) := match s with
    | 45 :: cs => ([45], cs)
    | _ => ([], s)
  match parseInt s1 with
  | none => none
  | some (i, s2) =>
    match parseFrac s2 with
    | none => none
    | some (f, s3) =>
      match parseExp s3 with
      | none => none
      | some (e, s4) => some (sign ++ i ++ f ++ e, s4)

/-- The characters of a JSON string after its opening quote, up to and
including the closing quote: the decoded string and the rest of the input.
`fuel` bounds the number of characters read. -/
def parseStringBody : Nat → JsString → Option (JsString × JsString)
  | 0, _ => none
  | _ + 1, [] => none
  | fuel + 1, c :: cs =>
    if c = 34 then some ([], cs)
    else if c = 92 then
      match cs with
      | [] => none
      | e :: cs2 =>
        if e = 117 then
          match cs2 with
          | h1 :: h2 :: h3 :: h4 :: cs3 =>
            match hexVal h1, hexVal h2, hexVal h3, hexVal h4 with
            | some a, some b, some c4, some d =>
              (parseStringBody fuel cs3).map
                (fun r => ((a * 4096 + b * 256 + c4 * 16 + d) :: r.1, r.2))
            | _, _, _, _ => none
          | _ => none
        else
          let unit : Option Nat :=
            if e = 34 then some 34 else if e = 92 then some 92
            else if e = 47 then some 47 else if e = 98 then some 8
            else if e = 102 then some 12 else if e = 110 then some 10
            else if e = 114 then some 13 else if e = 116 then some 9
            else none
          match unit with
          | none => none
          | some u => (parseStringBody fuel cs2).map (fun r => (u :: r.1, r.2))
    else if c < 32 then none
    else (parseStringBody fuel cs).map (fun r => (c :: r.1, r.2))

/-- What the parser is in the middle of. -/
inductive ParseGoal where
  | value : ParseGoal
  | elements : ParseGoal
  | members : ParseGoal

/-- What the parser produced. -/
inductive Parsed where
  | value (v : JsonValue) : Parsed
  | elements (vs : List JsonValue) : Parsed
  | members (ms : List (JsString × JsonValue)) : Parsed

/-- Recursive-descent JSON parser.  With goal `value` it reads one value
(leading whitespace allowed); with goal `elements` it reads the elements of a
non-empty array up to and including `]`; with goal `members` the members of a
non-empty object up to and including the closing brace.  `fuel` bounds the
nesting of calls. -/
def parseJson : Nat → ParseGoal → JsString → Option (Parsed × JsString)
  | 0, _, _ => none
  | fuel + 1, ParseGoal.value, s =>
    match skipWs s with
    | [] => none
    | c :: cs =>
      if c = 123 then
        match skipWs cs with
        | 125 :: rest => some (Parsed.value (JsonValue.obj []), rest)
        | _ =>
          match parseJson fuel ParseGoal.members cs with
          | some (Parsed.members ms, rest) => some (Parsed.value (JsonValue.obj ms), rest)
          | _ => none
      else if c = 91 then
        match skipWs cs with
        | 93 :: rest => some (Parsed.value (JsonValue.arr []), rest)
        | _ =>
          match parseJson fuel ParseGoal.elements cs with
          | some (Parsed.elements vs, rest) => some (Parsed.value (JsonValue.arr vs), rest)
          | _ => none
      else if c = 34 then
        (parseStringBody (cs.length + 1) cs).map
          (fun r => (Parsed.value (JsonValue.str r.1), r.2))
      else if startsWith (c :: cs) (js "true") then
        some (Parsed.value (JsonValue.bool true), (c :: cs).drop 4)
      else if startsWith (c :: cs) (js "false") then
        some (Parsed.value (JsonValue.bool false), (c :: cs).drop 5)
      else if startsWith (c :: cs) (js "null") then
        some (Parsed.value JsonValue.null, (c :: cs).drop 4)
      else
        (parseNumber (c :: cs)).map (fun r => (Parsed.value (JsonValue.num r.1), r.2))
  | fuel + 1, ParseGoal.elements, s =>
    match parseJson fuel ParseGoal.value s with
    | some (Parsed.value v, rest) =>
      match skipWs rest with
      | 93 :: rest2 => some (Parsed.elements [v], rest2)
      | 44 :: rest2 =>
        match parseJson fuel ParseGoal.elements rest2 with
        | some (Parsed.elements vs, rest3) => some (Parsed.elements (v :: vs), rest3)
        | _ => none
      | _ => none
    | _ => none
  | fuel + 1, ParseGoal.members, s =>
    match skipWs s with
    | 34 :: cs =>
      match parseStringBody (cs.length + 1) cs with
      | none => none
      | some (key, rest) =>
        match skipWs rest with
        | 58 :: rest2 =>
          match parseJson fuel ParseGoal.value rest2 with
          | some (Parsed.value v, rest3) =>
            match skipWs rest3 with
            | 125 :: rest4 => some (Parsed.members [(key, v)], rest4)
            | 44 :: rest4 =>
              match parseJson fuel ParseGoal.members rest4 with
              | some (Parsed.members ms, rest5) => some (Parsed.members ((key, v) :: ms), rest5)
              | _ => none
            | _ => none
          | _ => none
        | _ => none
    | _ => none

/-- The builtin `JSON.parse(text)`: `none` when it throws a `SyntaxError`.
Every recursive call of the parser consumes input or follows one that does,
so twice the length of the text is enough fuel. -/
def JSONparse (text : JsString) : Option JsonValue :=
  match parseJson (2 * text.length + 2) ParseGoal.value text with
  | some (Parsed.value v, rest) =>
    match skipWs rest with
    | [] => some v
    | _ => none
  | _ => none

/-! ## JavaScript operations on parsed values -/

/-- Truthiness of a parsed value: `null`, `false`, `0` and `''` are falsy. -/
def jsTruthy (N : NumberSemantics) : JsonValue → Bool
  | JsonValue.null => false
  | JsonValue.bool b => b
  | JsonValue.num lit => !N.isZero lit
  | JsonValue.str s => !s.isEmpty
  | JsonValue.arr _ => true
  | JsonValue.obj _ => true

/-- Does the parsed object have an own property with this key. -/
def hasKey (k : JsString) (ms : List (JsString × JsonValue)) : Bool :=
  ms.any (fun m => decide (m.1 = k))

mutual
/-- `ToString(v)`, as applied by `+=` on a string and by the `textContent`
setter: `none` when it throws a `TypeError` (an object whose own `toString`
member shadows `Object.prototype.toString` with a non-callable value). -/
def jsToString (N : NumberSemantics) : JsonValue → Option JsString
  | JsonValue.null => some (js "null")
  | JsonValue.bool true => some (js "true")
  | JsonValue.bool false => some (js "false")
  | JsonValue.num lit => some (N.toStr lit)
  | JsonValue.str s => some s
  | JsonValue.arr items => joinItems N items
  | JsonValue.obj ms =>
    if hasKey (js "toString") ms then none else some (js "[object Object]")
/-- `Array.prototype.join` with the default separator: `null` elements print as
the empty string. -/
def joinItems (N : NumberSemantics) : List JsonValue → Option JsString
  | [] => some []
  | JsonValue.null :: vs =>
    match vs with
    | [] => some []
    | _ :: _ => (joinItems N vs).map (fun r => 44 :: r)
  | v :: vs =>
    match jsToString N v with
    | none => none
    | some a =>
      match vs with
      | [] => some a
      | _ :: _ => (joinItems N vs).map (fun r => a ++ 44 :: r)
end

/-- Outcome of reading a property of a parsed value. -/
inductive Got where
  | threw : Got
  | undefined : Got
  | value (v : JsonValue) : Got

/-- The value of the last member with key `k` (a later duplicate key overrides
an earlier one in `JSON.parse`). -/
def lastMember (k : JsString) : List (JsString × JsonValue) → Option JsonValue
  | [] => none
  | m :: ms =>
    match lastMember k ms with
    | some v => some v
    | none => if m.1 = k then some m.2 else none

/-- `v[k]` for a parsed value `v` and one of the keys the front-ends read
(`text`, `answer`, `response`, ...), none of which is inherited from a
prototype: reading from `null` throws, a primitive or an array has no such
property. -/
def getProp (k : JsString) : JsonValue → Got
  | JsonValue.null => Got.threw
  | JsonValue.obj ms =>
    match lastMember k ms with
    | some v => Got.value v
    | none => Got.undefined
  | _ => Got.undefined

/-! ## Vanilla front-end (`frontend_rag/script.js`): translations -/

/-- The `en` table of `translations`. -/
def translations_en : List (JsString × JsString) :=
  [
    (js "appTitle", js "Smart Assistant")
  , (js "navChat", js "Chat")
  , (js "navDocuments", js "Documents")
  , (js "language", js "Language")
  , (js "chatWithDocs", js "Chat with Your Documents")
  , (js "headerSubtitle", js "Upload a PDF and ask questions")
  , (js "uploadPDF", js "Upload PDF Document")
  , (js "dragDrop", js "Drop PDF here or click to select")
  , (js "uploadHint", js "Maximum 50MB")
  , (js "uploadBtn", js "Upload PDF")
  , (js "uploadSuccess", js "PDF uploaded successfully!")
  , (js "uploadError", js "Failed to upload PDF. Please try again.")
  , (js "fileRequired", js "Please select a PDF file first.")
  , (js "sendBtn", js "Send")
  , (js "welcomeMsg", js "Welcome! Upload a PDF to get started.")
  , (js "noDocs", js "No documents yet")
  , (js "uploadFirst", js "Upload a PDF to get started")
  , (js "inputHint", js "Press Enter to send or use the send button")
  , (js "chatError", js "Failed to get response. Please try again.") ]

/-- The `hi` table of `translations`. -/
def translations_hi : List (JsString × JsString) :=
  [
    (js "appTitle", js "स्मार्ट सहायक")
  , (js "navChat", js "चैट")
  , (js "navDocuments", js "दस्तावेज़")
  , (js "language", js "भाषा")
  , (js "chatWithDocs", js "अपने दस्तावेज़ के साथ चैट करें")
  , (js "headerSubtitle", js "एक PDF अपलोड करें और प्रश्न पूछें")
  , (js "uploadPDF", js "PDF दस्तावेज़ अपलोड करें")
  , (js "dragDrop", js "यहां PDF छोड़ें या चुनने के लिए क्लिक करें")
  , (js "uploadHint", js "अधिकतम 50MB")
  , (js "uploadBtn", js "PDF अपलोड करें")
  , (js "uploadSuccess", js "PDF सफलतापूर्वक अपलोड हो गया!")
  , (js "uploadError", js "PDF अपलोड करने में विफल। कृपया पुनः प्रयास करें।")
  , (js "fileRequired", js "पहले कोई PDF फ़ाइल चुनें।")
  , (js "sendBtn", js "भेजें")
  , (js "welcomeMsg", js "स्वागत है! शुरू करने के लिए एक PDF अपलोड करें।")
  , (js "noDocs", js "अभी कोई दस्तावेज़ नहीं")
  , (js "uploadFirst", js "शुरू करने के लिए एक PDF अपलोड करें")
  , (js "inputHint", js "भेजने के लिए Enter दबाएं या भेजें बटन का उपयोग करें")
  , (js "chatError", js "प्रतिक्रिया प्राप्त करने में विफल। कृपया पुनः प्रयास करें।") ]

/-- The `mr` table of `translations`. -/
def translations_mr : List (JsString × JsString) :=
  [
    (js "appTitle", js "स्मार्ट सहायक")
  , (js "navChat", js "चॅट")
  , (js "navDocuments", js "दस्तऐवज")
  , (js "language", js "भाषा")
  , (js "chatWithDocs", js "तुमच्या दस्तऐवजाशी बातचीत करा")
  , (js "headerSubtitle", js "PDF अपलोड करा आणि प्रश्न विचारा")
  , (js "uploadPDF", js "PDF दस्तऐवज अपलोड करा")
  , (js "dragDrop", js "येथे PDF सोडा किंवा निवडण्यासाठी क्लिक करा")
  , (js "uploadHint", js "जास्तीत जास्त 50MB")
  , (js "uploadBtn", js "PDF अपलोड करा")
  , (js "uploadSuccess", js "PDF यशस्वीरित्या अपलोड झाली!")
  , (js "uploadError", js "PDF अपलोड करण्यात अयशस्वी. कृपया पुन्हा प्रयत्न करा.")
  , (js "fileRequired", js "प्रथम PDF फाइल निवडा.")
  , (js "sendBtn", js "पाठवा")
  , (js "welcomeMsg", js "स्वागतम! सुरू करण्यासाठी PDF अपलोड करा.")
  , (js "noDocs", js "अद्याप कोणतेही दस्तऐवज नाहीत")
  , (js "uploadFirst", js "सुरू करण्यासाठी PDF अपलोड करा")
  , (js "inputHint", js "पाठवण्यासाठी Enter दाबा किंवा पाठवा बटन वापरा")
  , (js "chatError", js "प्रतिसाद मिळविण्यात अयशस्वी. कृपया पुन्हा प्रयत्न करा.") ]

/-- The constant `translations`. -/
def translations : List (JsString × List (JsString × JsString)) :=
  [(js "en", translations_en), (js "hi", translations_hi), (js "mr", translations_mr)]

/-- First entry of an association list with the given key. -/
def lookup {α : Type} (k : JsString) : List (JsString × α) → Option α
  | [] => none
  | e :: es => if e.1 = k then some e.2 else lookup k es

/-- The function `t(key)` at current language `lang`:
`translations[lang]?.[key] || translations.en[key] || key`. -/
def t (lang key : JsString) : JsString :=
  match (lookup lang translations).bind (lookup key) with
  | some (c :: cs) => c :: cs
  | _ =>
    match lookup key translations_en with
    | some (c :: cs) => c :: cs
    | _ => key

/-! ## Vanilla front-end: the chat transcript -/

/-- Who a message bubble belongs to. -/
inductive Sender where
  | bot : Sender
  | user : Sender
deriving DecidableEq, Repr

/-- A `div.message-group` created by `addMessage` or `addTypingIndicator`. -/
structure MessageGroup where
  /-- element id is `typing-indicator`. -/
  typing : Bool
  sender : Sender
  /-- `textContent` of the `.message-text` paragraph. -/
  text : JsString
  /-- still a child of `#chat-messages`. -/
  attached : Bool
deriving DecidableEq, Repr

/-- All message groups created so far, in creation order; an element is
referred to by its position.  `#chat-messages` shows the attached ones, in
this order (`appendChild` only ever appends). -/
abbrev Dom := List MessageGroup

/-- The children of `#chat-messages`. -/
def displayed (dom : Dom) : List MessageGroup := dom.filter (fun m => m.attached)

/-- `addMessage(text, sender)`: the new transcript and the created element. -/
def addMessage (dom : Dom) (text : JsString) (sender : Sender) : Dom × Nat :=
  (dom ++ [{ typing := false, sender := sender, text := text, attached := true }], dom.length)

/-- `addTypingIndicator()`. -/
def addTypingIndicator (dom : Dom) : Dom :=
  dom ++ [{ typing := true, sender := Sender.bot, text := [], attached := true }]

/-- `removeTypingIndicator()`: detach the first attached element whose id is
`typing-indicator`, if there is one. -/
def removeTypingIndicator : Dom → Dom
  | [] => []
  | m :: ms =>
    if m.typing && m.attached then { m with attached := false } :: ms
    else m :: removeTypingIndicator ms

/-- `el.querySelector('.message-text').textContent = text` for the element at
position `el`. -/
def setText : Dom → Nat → JsString → Dom
  | [], _, _ => []
  | m :: ms, 0, text => { m with text := text } :: ms
  | m :: ms, el + 1, text => m :: setText ms el text

/-- `elements.chatMessages.innerHTML = ''`: every child is detached. -/
def clearMessages (dom : Dom) : Dom := dom.map (fun m => { m with attached := false })

/-- Number of typing indicators in the document. -/
def typingCount (dom : Dom) : Nat := (dom.filter (fun m => m.typing && m.attached)).length

/-! ## Vanilla front-end: `handleStreamingResponse` -/

/-- The local variables `messageEl` and `fullResponse`. -/
structure StreamLocals where
  messageEl : Option Nat
  fullResponse : JsString
deriving DecidableEq, Repr

/-- The statements under `if (jsonData.text)` once `+=` has produced the string
`appended`: update `fullResponse`, then create the bubble or rewrite its text. -/
def appendText (st : Dom × StreamLocals) (appended : JsString) : Dom × StreamLocals :=
  let fullResponse := st.2.fullResponse ++ appended
  match st.2.messageEl with
  | none =>
    let r := addMessage st.1 fullResponse Sender.bot
    (r.1, { messageEl := some r.2, fullResponse := fullResponse })
  | some el =>
    (setText st.1 el fullResponse, { messageEl := some el, fullResponse := fullResponse })

/-- The body of `for (const line of lines)` for one line.  Everything after
`startsWith` is inside `try { ... } catch (e) { }`: a `SyntaxError` of
`JSON.parse`, a `TypeError` of reading `.text` from `null` and a `TypeError`
of `+=` all leave the state as it was. -/
def processLine (N : NumberSemantics) (st : Dom × StreamLocals) (line : JsString) :
    Dom × StreamLocals :=
  if startsWith line (js "data: ") then
    match JSONparse (slice 6 line) with
    | none => st
    | some jsonData =>
      match getProp (js "text") jsonData with
      | Got.value text =>
        if jsTruthy N text then
          match jsToString N text with
          | none => st
          | some appended => appendText st appended
        else st
      | _ => st
  else st

/-- One iteration of the `while (true)` loop for a decoded chunk:
`chunk.split('\n')` and the `for` loop over the lines. -/
def processChunk (N : NumberSemantics) (st : Dom × StreamLocals) (chunk : JsString) :
    Dom × StreamLocals :=
  (split 10 chunk).foldl (processLine N) st

/-- How the stream ends: `reader.read()` resolves with `done`, or rejects. -/
inductive StreamEnd where
  | done : StreamEnd
  | error : StreamEnd
deriving DecidableEq, Repr

/-- The code after the loop (`done`) or the `catch` block (`error`). -/
def finishStream (lang : JsString) (st : Dom × StreamLocals) : StreamEnd → Dom × StreamLocals
  | StreamEnd.done =>
    if st.2.messageEl.isNone && !st.2.fullResponse.isEmpty then
      ((addMessage st.1 st.2.fullResponse Sender.bot).1, st.2)
    else st
  | StreamEnd.error =>
    ((addMessage (removeTypingIndicator st.1) (t lang (js "chatError")) Sender.bot).1, st.2)

/-- The locals at entry of `handleStreamingResponse`. -/
def StreamLocals.init : StreamLocals := { messageEl := none, fullResponse := [] }

/-- `handleStreamingResponse(response)` run on a response whose body yields
the decoded `chunks` and then ends with `end_`, with no other handler running
in between: the final transcript and locals. -/
def handleStreamingResponse (N : NumberSemantics) (lang : JsString) (dom : Dom)
    (chunks : List JsString) (end_ : StreamEnd) : Dom × StreamLocals :=
  finishStream lang (chunks.foldl (processChunk N) (dom, StreamLocals.init)) end_

/-- Text shown by the element `messageEl`, if it was created. -/
def botMessageText (r : Dom × StreamLocals) : Option JsString :=
  match r.2.messageEl with
  | none => none
  | some el => (r.1.get? el).map (fun m => m.text)

/-! ## Vanilla front-end: vocabulary for the stream reader's properties -/

/-- The lines the reader iterates over, in order: each chunk split at `\n`. -/
def streamLines (chunks : List JsString) : List JsString := chunks.flatMap (split 10)

/-- The string that `processLine` appends to `fullResponse` for this line, if
any: the line starts with `data: `, its payload parses, `text` is truthy and
`+=` can convert it to a string. -/
def appendedOf (N : NumberSemantics) (line : JsString) : Option JsString :=
  if startsWith line (js "data: ") then
    match JSONparse (slice 6 line) with
    | none => none
    | some jsonData =>
      match getProp (js "text") jsonData with
      | Got.value text => if jsTruthy N text then jsToString N text else none
      | _ => none
  else none

/-- The `text` of a data event: the line starts with `data: ` and its payload
parses as JSON with a property `text`. -/
def textOf (line : JsString) : Option JsonValue :=
  if startsWith line (js "data: ") then
    match JSONparse (slice 6 line) with
    | none => none
    | some jsonData =>
      match getProp (js "text") jsonData with
      | Got.value text => some text
      | _ => none
  else none

/-- The line is a data event with truthy `text`. -/
def truthyText (N : NumberSemantics) (line : JsString) : Bool :=
  match textOf line with
  | some text => jsTruthy N text
  | none => false

/-- The `text` of a line that starts with `data: ` and whose payload parses as
JSON with a non-empty string `text`. -/
def stringTextOf (line : JsString) : Option JsString :=
  match textOf line with
  | some (JsonValue.str (c :: cs)) => some (c :: cs)
  | _ => none

/-- In-order concatenation of the non-empty string `text` fields of all data
lines of the whole response text. -/
def expectedText (chunks : List JsString) : JsString :=
  ((split 10 chunks.flatten).filterMap stringTextOf).flatten

/-- The chunk contains only whole lines: it is empty or ends with `\n`. -/
def wholeLines (chunk : JsString) : Bool := chunk.isEmpty || chunk.getLast? == some 10

/-- The line does not carry a truthy `text` that is not a string. -/
def stringTexts (N : NumberSemantics) (line : JsString) : Bool :=
  match textOf line with
  | some (JsonValue.str _) => true
  | some text => !jsTruthy N text
  | none => true

/-- Text shown in the bubble of the streamed answer (empty before it exists). -/
def shownText (r : Dom × StreamLocals) : JsString := (botMessageText r).getD []

/-- The state the reader's loop is in after the given lines, from a transcript
`dom` at entry. -/
def afterLines (N : NumberSemantics) (dom : Dom) (lines : List JsString) : Dom × StreamLocals :=
  lines.foldl (processLine N) (dom, StreamLocals.init)

/-- The loop state after the strings `texts` have been appended, one per data
event, from a transcript `dom` at entry. -/
def streamed (dom : Dom) (texts : List JsString) : Dom × StreamLocals :=
  match texts with
  | [] => (dom, StreamLocals.init)
  | _ :: _ =>
    (dom ++ [{ typing := false, sender := Sender.bot, text := texts.flatten, attached := true }],
     { messageEl := some dom.length, fullResponse := texts.flatten })

/-! ## Vanilla front-end: application state and handlers -/

/-- A `File` picked in a file input or dropped on the page. -/
structure File where
  name : JsString
  type : JsString
  size : Nat
deriving DecidableEq, Repr

/-- The JSON body of a `POST /ask` request. -/
structure AskRequest where
  question : JsString
  lang : JsString
deriving DecidableEq, Repr

/-- Where a call of `handleSendMessage` is suspended. -/
inductive AskPhase where
  /-- at `await fetch(...)`. -/
  | fetching : AskPhase
  /-- at `await response.json()`. -/
  | readingJson : AskPhase
  /-- inside `handleStreamingResponse`, at `await reader.read()`. -/
  | streaming (locals : StreamLocals) : AskPhase
deriving DecidableEq, Repr

/-- What `index.html`, which is not part of the sources, fixes before any
script runs. -/
structure Page where
  questionInputDisabled : Bool
  sendBtnDisabled : Bool
  uploadBtnDisabled : Bool
  questionInputValue : JsString
deriving DecidableEq, Repr

/-- The state of the page: the reactive store `appState.state`, the
`localStorage` entry, the parts of the document that the handlers read or
write, the requests sent so far, and the suspended asynchronous calls.
Properties that are only written for display (class names, `aria-busy`,
placeholders, scroll position, focus) are left out. -/
structure AppState where
  currentLanguage : JsString
  isWaitingForResponse : Bool
  isChatEnabled : Bool
  uploadedFileName : Option JsString
  currentSection : JsString
  /-- `localStorage.getItem('preferredLanguage')`. -/
  preferredLanguage : Option JsString
  /-- the elements created in `#chat-messages`. -/
  chatMessages : Dom
  questionInputValue : JsString
  questionInputDisabled : Bool
  sendBtnDisabled : Bool
  uploadBtnDisabled : Bool
  /-- `elements.fileInput.files[0]`. -/
  fileInputFile : Option File
  /-- every toast shown so far: message and type. -/
  toasts : List (JsString × JsString)
  /-- every `POST /ask` issued so far. -/
  askRequests : List AskRequest
  /-- number of `POST /upload` issued so far. -/
  uploadRequests : Nat
  /-- the calls of `handleSendMessage` that have not returned yet. -/
  pendingAsks : List AskPhase
  /-- number of calls of `handleUpload` suspended at `await fetch(...)`. -/
  pendingUploads : Nat
deriving DecidableEq, Repr

/-- Assignment `appState.state.isWaitingForResponse = v` through the proxy:
nothing happens when the value is unchanged, otherwise the watcher of lines
540 to 543 runs. -/
def setIsWaitingForResponse (s : AppState) (v : Bool) : AppState :=
  if s.isWaitingForResponse = v then s
  else { s with
    isWaitingForResponse := v
    sendBtnDisabled := v || !s.isChatEnabled
    questionInputDisabled := !s.isChatEnabled || v }

/-- Assignment `appState.state.isChatEnabled = v` through the proxy, with the
watcher of lines 545 to 548. -/
def setIsChatEnabled (s : AppState) (v : Bool) : AppState :=
  if s.isChatEnabled = v then s
  else { s with
    isChatEnabled := v
    questionInputDisabled := !v
    sendBtnDisabled := !v || s.isWaitingForResponse }

/-- Assignment `appState.state.currentLanguage = v` through the proxy, with the
watcher of lines 184 to 189 (`updateUILanguage` only rewrites labels). -/
def setCurrentLanguage (s : AppState) (v : JsString) : AppState :=
  if s.currentLanguage = v then s
  else { s with currentLanguage := v, preferredLanguage := some v }

/-- `showToast(message, type)`. -/
def showToast (s : AppState) (message type : JsString) : AppState :=
  { s with toasts := s.toasts ++ [(message, type)] }

/-- `handleFileSelect(file)`. -/
def handleFileSelect (s : AppState) (file : File) : AppState :=
  if file.type ≠ js "application/pdf" then
    showToast s (js "Please select a valid PDF file") (js "error")
  else { s with uploadedFileName := some file.name }

/-- `handleUpload()` up to `await fetch('http://localhost:8000/upload', ...)`. -/
def handleUpload (s : AppState) : AppState :=
  match s.fileInputFile with
  | none => showToast s (t s.currentLanguage (js "fileRequired")) (js "error")
  | some _ =>
    { s with
      uploadBtnDisabled := true
      uploadRequests := s.uploadRequests + 1
      pendingUploads := s.pendingUploads + 1 }

/-- How `fetch` of `/upload` settles. -/
inductive UploadOutcome where
  /-- resolved with `response.ok`. -/
  | ok : UploadOutcome
  /-- resolved with a status outside 200 to 299. -/
  | notOk : UploadOutcome
  /-- rejected (network error). -/
  | rejected : UploadOutcome
deriving DecidableEq, Repr

/-- The rest of `handleUpload()` once `fetch` has settled. -/
def handleUploadSettled (s : AppState) (o : UploadOutcome) : AppState :=
  match o with
  | UploadOutcome.ok =>
    let s1 := showToast s (t s.currentLanguage (js "uploadSuccess")) (js "success")
    let s2 := { s1 with fileInputFile := none }
    let s3 := setIsChatEnabled s2 true
    let s4 := { s3 with questionInputDisabled := false }
    { s4 with
      chatMessages :=
        (addMessage (clearMessages s4.chatMessages) (t s4.currentLanguage (js "welcomeMsg"))
          Sender.bot).1
      uploadBtnDisabled := false
      pendingUploads := s4.pendingUploads - 1 }
  | _ =>
    let s1 := showToast s (t s.currentLanguage (js "uploadError")) (js "error")
    { s1 with uploadBtnDisabled := false, pendingUploads := s1.pendingUploads - 1 }

/-- `handleSendMessage()` up to `await fetch('http://localhost:8000/ask', ...)`. -/
def handleSendMessage (s : AppState) : AppState :=
  let question := trim s.questionInputValue
  if question.isEmpty || s.isWaitingForResponse || !s.isChatEnabled then s
  else
    let s1 := setIsWaitingForResponse s true
    { s1 with
      sendBtnDisabled := true
      questionInputDisabled := true
      chatMessages := addTypingIndicator (addMessage s1.chatMessages question Sender.user).1
      questionInputValue := []
      askRequests := s1.askRequests ++ [{ question := question, lang := s1.currentLanguage }]
      pendingAsks := s1.pendingAsks ++ [AskPhase.fetching] }

/-- The `catch` block of `handleSendMessage`. -/
def askCatch (s : AppState) : AppState :=
  let s1 := { s with chatMessages := removeTypingIndicator s.chatMessages }
  let s2 := showToast s1 (t s1.currentLanguage (js "chatError")) (js "error")
  { s2 with
    chatMessages := (addMessage s2.chatMessages (t s2.currentLanguage (js "chatError")) Sender.bot).1 }

/-- The `finally` block of `handleSendMessage`, after which the call at
position `i` of `pendingAsks` has returned. -/
def askFinally (s : AppState) (i : Nat) : AppState :=
  let s1 := setIsWaitingForResponse s false
  { s1 with
    sendBtnDisabled := false
    questionInputDisabled := false
    pendingAsks := s1.pendingAsks.eraseIdx i }

/-- `a || b` on two property reads, the second evaluated only when the first
is falsy: `none` when a read throws. -/
def firstTruthy (N : NumberSemantics) (a b : Got) : Option (Option JsonValue) :=
  match a with
  | Got.threw => none
  | Got.value v =>
    if jsTruthy N v then some (some v)
    else match b with
      | Got.threw => none
      | Got.value w => if jsTruthy N w then some (some w) else some none
      | Got.undefined => some none
  | Got.undefined =>
    match b with
    | Got.threw => none
    | Got.value w => if jsTruthy N w then some (some w) else some none
    | Got.undefined => some none

/-- The non-streaming branch once `response.json()` has resolved with `data`:
`data.answer || data.response || 'No response received'`, then `addMessage`.
A `TypeError` (reading from `null`, or a value that `textContent` cannot
convert) goes to the `catch` block before anything is appended. -/
def showJsonAnswer (N : NumberSemantics) (s : AppState) (data : JsonValue) : AppState :=
  match firstTruthy N (getProp (js "answer") data) (getProp (js "response") data) with
  | none => askCatch s
  | some none =>
    { s with chatMessages := (addMessage s.chatMessages (js "No response received") Sender.bot).1 }
  | some (some v) =>
    match jsToString N v with
    | none => askCatch s
    | some text => { s with chatMessages := (addMessage s.chatMessages text Sender.bot).1 }

/-- How the promise a suspended `handleSendMessage` waits for settles. -/
inductive AskSettle where
  /-- `fetch` rejects. -/
  | fetchRejected : AskSettle
  /-- `fetch` resolves: `response.ok`, the `content-type` header, and whether
  `response.body` is a stream. -/
  | fetchResolved (ok : Bool) (contentType : Option JsString) (hasBody : Bool) : AskSettle
  /-- `response.json()` rejects. -/
  | jsonRejected : AskSettle
  /-- `response.json()` resolves. -/
  | jsonResolved (data : JsonValue) : AskSettle
  /-- `reader.read()` resolves with a chunk, here already decoded. -/
  | chunk (text : JsString) : AskSettle
  /-- `reader.read()` resolves with `done`. -/
  | streamDone : AskSettle
  /-- `reader.read()` rejects. -/
  | streamError : AskSettle

/-- `contentType && contentType.includes('text/event-stream')`. -/
def isEventStream : Option JsString → Bool
  | none => false
  | some ct => !ct.isEmpty && includes ct (js "text/event-stream")

/-- Replace the phase of the suspended call at position `i`. -/
def setPhase (s : AppState) (i : Nat) (p : AskPhase) : AppState :=
  { s with pendingAsks := s.pendingAsks.set i p }

/-- The continuation of the call of `handleSendMessage` at position `i` of
`pendingAsks` when the promise it waits for settles with `ev`.  A settlement
that does not match the phase of the call cannot happen and changes nothing. -/
def continueAsk (N : NumberSemantics) (s : AppState) (i : Nat) (ev : AskSettle) : AppState :=
  match s.pendingAsks.get? i, ev with
  | some AskPhase.fetching, AskSettle.fetchRejected => askFinally (askCatch s) i
  | some AskPhase.fetching, AskSettle.fetchResolved ok contentType hasBody =>
    let s1 := { s with chatMessages := removeTypingIndicator s.chatMessages }
    if !ok then askFinally (askCatch s1) i
    else if isEventStream contentType then
      if hasBody then setPhase s1 i (AskPhase.streaming StreamLocals.init)
      else askFinally (askCatch s1) i
    else setPhase s1 i AskPhase.readingJson
  | some AskPhase.readingJson, AskSettle.jsonRejected => askFinally (askCatch s) i
  | some AskPhase.readingJson, AskSettle.jsonResolved data => askFinally (showJsonAnswer N s data) i
  | some (AskPhase.streaming locals), AskSettle.chunk text =>
    let r := processChunk N (s.chatMessages, locals) text
    setPhase { s with chatMessages := r.1 } i (AskPhase.streaming r.2)
  | some (AskPhase.streaming locals), AskSettle.streamDone =>
    askFinally { s with
      chatMessages := (finishStream s.currentLanguage (s.chatMessages, locals) StreamEnd.done).1 } i
  | some (AskPhase.streaming locals), AskSettle.streamError =>
    askFinally { s with
      chatMessages := (finishStream s.currentLanguage (s.chatMessages, locals) StreamEnd.error).1 } i
  | _, _ => s

/-- Whether the settlement `ev` makes a call suspended in phase `p` return. -/
def finishes (p : AskPhase) (ev : AskSettle) : Bool :=
  match p, ev with
  | AskPhase.fetching, AskSettle.fetchRejected => true
  | AskPhase.fetching, AskSettle.fetchResolved ok contentType hasBody =>
    !ok || (isEventStream contentType && !hasBody)
  | AskPhase.readingJson, AskSettle.jsonRejected => true
  | AskPhase.readingJson, AskSettle.jsonResolved _ => true
  | AskPhase.streaming _, AskSettle.streamDone => true
  | AskPhase.streaming _, AskSettle.streamError => true
  | _, _ => false

/-- What can happen on the page. -/
inductive Event where
  /-- the user edits the question box. -/
  | typeQuestion (value : JsString) : Event
  /-- `keypress` on the question box. -/
  | keypress (key : JsString) : Event
  /-- `click` on the send button. -/
  | clickSend : Event
  /-- `change` of the file input, whose first file is now `file`. -/
  | fileInputChange (file : Option File) : Event
  /-- `drop` of files on the upload area, the first one being `file`. -/
  | drop (file : Option File) : Event
  /-- `click` on the upload button. -/
  | clickUpload : Event
  /-- `change` of the language selector. -/
  | langSelectChange (value : JsString) : Event
  /-- `click` on a navigation item. -/
  | navClick (section_ : JsString) : Event
  /-- the `fetch` of a suspended `handleUpload` settles. -/
  | uploadSettled (o : UploadOutcome) : Event
  /-- the promise awaited by the suspended `handleSendMessage` at position `i`
  settles. -/
  | askSettled (i : Nat) (ev : AskSettle) : Event

/-- The handler that an event runs. -/
def step (N : NumberSemantics) (s : AppState) : Event → AppState
  | Event.typeQuestion value => { s with questionInputValue := value }
  | Event.keypress key =>
    if key = js "Enter" && !s.isWaitingForResponse && s.isChatEnabled then handleSendMessage s
    else s
  | Event.clickSend => handleSendMessage s
  | Event.fileInputChange file =>
    match file with
    | some f => handleFileSelect { s with fileInputFile := some f } f
    | none => { s with fileInputFile := none }
  | Event.drop file =>
    match file with
    | some f => handleFileSelect s f
    | none => s
  | Event.clickUpload => handleUpload s
  | Event.langSelectChange value => setCurrentLanguage s value
  | Event.navClick section_ =>
    if s.currentSection = section_ then s else { s with currentSection := section_ }
  | Event.uploadSettled o => if s.pendingUploads = 0 then s else handleUploadSettled s o
  | Event.askSettled i ev => continueAsk N s i ev

/-- The state once the script has been evaluated and `DOMContentLoaded` has
run, for a page `page` and a stored language `stored`. -/
def AppState.init (page : Page) (stored : Option JsString) : AppState :=
  let lang := match stored with
    | some (c :: cs) => c :: cs
    | _ => js "en"
  { currentLanguage := lang
    isWaitingForResponse := false
    isChatEnabled := false
    uploadedFileName := none
    currentSection := js "chat"
    preferredLanguage := stored
    chatMessages := (addMessage [] (t lang (js "welcomeMsg")) Sender.bot).1
    questionInputValue := page.questionInputValue
    questionInputDisabled := page.questionInputDisabled
    sendBtnDisabled := page.sendBtnDisabled
    uploadBtnDisabled := page.uploadBtnDisabled
    fileInputFile := none
    toasts := []
    askRequests := []
    uploadRequests := 0
    pendingAsks := []
    pendingUploads := 0 }

/-- The state after a sequence of events. -/
def run (N : NumberSemantics) (s : AppState) (es : List Event) : AppState :=
  es.foldl (step N) s

/-- The event is a `fetch` of `/upload` resolving with an OK status. -/
def isUploadSuccess : Event → Bool
  | Event.uploadSettled UploadOutcome.ok => true
  | _ => false

/-- Number of suspended calls of `handleSendMessage` waiting for `fetch`. -/
def fetchingCount (ps : List AskPhase) : Nat :=
  (ps.filter (fun p => decide (p = AskPhase.fetching))).length

/-- What holds of the chat handler in every state the page can reach: at most
one call of `handleSendMessage` is suspended; the flag `isWaitingForResponse`
is set exactly while one is; a typing indicator is only shown while a call
waits for `fetch`; and a call has only started with the chat enabled. -/
def ChatInvariant (s : AppState) : Prop :=
  s.pendingAsks.length ≤ 1 ∧
  s.isWaitingForResponse = !s.pendingAsks.isEmpty ∧
  typingCount s.chatMessages ≤ fetchingCount s.pendingAsks ∧
  (s.pendingAsks ≠ [] → s.isChatEnabled = true) ∧
  (s.askRequests ≠ [] → s.isChatEnabled = true)

/-- A page as it could be served: chat controls disabled until an upload. -/
def samplePage : Page :=
  { questionInputDisabled := true, sendBtnDisabled := true, uploadBtnDisabled := false,
    questionInputValue := [] }

/-- A PDF file. -/
def samplePdf : File := { name := js "report.pdf", type := js "application/pdf", size := 1000 }

/-- A session: pick a PDF, upload it successfully, type a question, send it. -/
def sampleSession : List Event :=
  [Event.fileInputChange (some samplePdf), Event.clickUpload,
   Event.uploadSettled UploadOutcome.ok, Event.typeQuestion (js " hi "), Event.clickSend]

/-! ## React front-end: `context/LanguageContext.jsx` -/

/-- The entries of `localStorage`, most recent first. -/
abbrev Storage := List (JsString × JsString)

/-- `localStorage.getItem(key)`: `none` is `null`. -/
def getItem (storage : Storage) (key : JsString) : Option JsString := lookup key storage

/-- `localStorage.setItem(key, value)`. -/
def setItem (storage : Storage) (key value : JsString) : Storage :=
  (key, value) :: storage.filter (fun e => decide (e.1 ≠ key))

/-- The array `['en', 'hi', 'mr']`. -/
def validLanguages : List JsString := [js "en", js "hi", js "mr"]

/-- The state of a `LanguageProvider` and the environment it runs in:
`window` is `none` when `typeof window === 'undefined'`, and otherwise holds
the content of `localStorage`. -/
structure LanguageState where
  language : JsString
  window : Option Storage
deriving DecidableEq, Repr

/-- The initialiser of `useState` in `LanguageProvider`. -/
def initialLanguage (window : Option Storage) : JsString :=
  match window with
  | some storage =>
    match getItem storage (js "selectedLanguage") with
    | some (c :: cs) => c :: cs
    | _ => js "en"
  | none => js "en"

/-- The function `setLanguage(newLanguage)` of `LanguageProvider`. -/
def setLanguage (s : LanguageState) (newLanguage : JsString) : LanguageState :=
  if !validLanguages.contains newLanguage then s
  else
    match s.window with
    | some storage =>
      { language := newLanguage
        window := some (setItem storage (js "selectedLanguage") newLanguage) }
    | none => { s with language := newLanguage }

/-- The `useEffect` of `LanguageProvider` that runs once on mount. -/
def restoreLanguage (s : LanguageState) : LanguageState :=
  match s.window with
  | some storage =>
    match getItem storage (js "selectedLanguage") with
    | some (c :: cs) =>
      if validLanguages.contains (c :: cs) then { s with language := c :: cs } else s
    | _ => s
  | none => s

/-- A `LanguageProvider` once mounted: initial state, then the mount effect. -/
def mountLanguageProvider (window : Option Storage) : LanguageState :=
  restoreLanguage { language := initialLanguage window, window := window }

/-! ## React front-end: `services/api.js`, `components/Chat.jsx`, `pages/ChatPage.jsx` -/

/-- The body that `askQuestion` posts to `/ask-question`.  `session_id` is
`none` when the argument is `undefined`. -/
structure AskQuestionRequest where
  session_id : Option JsonValue
  question : JsString
  language : JsString

/-- `askQuestion(sessionId, question, language = 'en')` up to `api.post`: the
request body.  A `language` of `none` is `undefined`, replaced by the default. -/
def askQuestionBody (sessionId : Option JsonValue) (question : JsString)
    (language : Option JsString) : AskQuestionRequest :=
  { session_id := sessionId
    question := question
    language := match language with
      | some l => l
      | none => js "en" }

/-- The error that `askQuestion` throws: its `message`, and its `response`
(`none` when `undefined`), of which only `data` is read (`none` when `data` is
`undefined`). -/
structure AskError where
  message : JsString
  response : Option (Option JsonValue)

/-- The role of a chat message. -/
inductive Role where
  | assistant : Role
  | user : Role
deriving DecidableEq, Repr

/-- The `content` of a chat message, kept as the value it is built from: the
welcome template applied to `documentName`, the text the user typed, or
`response.answer`. -/
inductive Content where
  | welcome (documentName : Option JsonValue) : Content
  | typed (text : JsString) : Content
  | answer (value : Option JsonValue) : Content

/-- An element of `messages`. -/
structure Message where
  id : Nat
  role : Role
  content : Content
  timestamp : Nat
  originalAnswer : Option JsonValue
  language : Option JsonValue

/-- The props of `Chat` that its handlers read. -/
structure ChatProps where
  sessionId : Option JsonValue
  documentName : Option JsonValue
  currentLanguage : JsString

/-- The state of a mounted `Chat`. -/
structure ChatState where
  messages : List Message
  inputValue : JsString
  isLoading : Bool
  error : JsonValue

/-- The initial state of `Chat`, mounted at time `now`. -/
def ChatState.init (props : ChatProps) (now : Nat) : ChatState :=
  { messages := [{ id := 1, role := Role.assistant, content := Content.welcome props.documentName,
                   timestamp := now, originalAnswer := none, language := none }]
    inputValue := []
    isLoading := false
    error := JsonValue.str [] }

/-- `Chat.handleSendMessage` up to `await askQuestion(...)`, called at time
`now`: the new state, and the request body if `askQuestion` was called. -/
def Chat.handleSendMessage (props : ChatProps) (st : ChatState) (now : Nat) :
    ChatState × Option AskQuestionRequest :=
  if (trim st.inputValue).isEmpty || st.isLoading then (st, none)
  else
    ({ messages := st.messages ++
         [{ id := now, role := Role.user, content := Content.typed st.inputValue,
            timestamp := now, originalAnswer := none, language := none }]
       inputValue := []
       isLoading := true
       error := JsonValue.str [] },
     some (askQuestionBody props.sessionId st.inputValue (some props.currentLanguage)))

/-- `v` of a property read, `none` for `undefined`. -/
def Got.toOption : Got → Option JsonValue
  | Got.value v => some v
  | _ => none

/-- Truthiness of a value that may be `undefined`. -/
def truthyOpt (N : NumberSemantics) : Option JsonValue → Bool
  | some v => jsTruthy N v
  | none => false

/-- The `catch` block of `Chat.handleSendMessage` for an error with the given
`message` and `response`. -/
def chatCatch (N : NumberSemantics) (st : ChatState) (err : AskError) : ChatState :=
  let detail := match err.response with
    | some (some data) => (getProp (js "detail") data).toOption
    | _ => none
  let message := match err.response with
    | some (some data) => (getProp (js "message") data).toOption
    | _ => none
  let errorMessage : JsonValue :=
    match err.message with
    | c :: cs => JsonValue.str (c :: cs)
    | [] =>
      match detail with
      | some d =>
        if jsTruthy N d then d
        else match message with
          | some m =>
            if jsTruthy N m then m
            else JsonValue.str (js "Failed to process question. Please try again.")
          | none => JsonValue.str (js "Failed to process question. Please try again.")
      | none =>
        match message with
        | some m =>
          if jsTruthy N m then m
          else JsonValue.str (js "Failed to process question. Please try again.")
        | none => JsonValue.str (js "Failed to process question. Please try again.")
  { st with error := errorMessage }

/-- The rest of `Chat.handleSendMessage` once `askQuestion` has resolved with
`data`, at time `now`.  Reading `success` from `null` throws a `TypeError`,
whose engine-dependent message is `typeError`, into the `catch` block. -/
def chatAskResolved (N : NumberSemantics) (st : ChatState) (now : Nat) (data : JsonValue)
    (typeError : JsString) : ChatState :=
  let st1 : ChatState :=
    match getProp (js "success") data with
    | Got.threw => chatCatch N st { message := typeError, response := none }
    | success =>
      if truthyOpt N success.toOption then
        { st with messages := st.messages ++
            [{ id := now + 1
               role := Role.assistant
               content := Content.answer (getProp (js "answer") data).toOption
               timestamp := now
               originalAnswer := (getProp (js "original_answer") data).toOption
               language := (getProp (js "language") data).toOption }] }
      else
        match (getProp (js "message") data).toOption with
        | some m =>
          if jsTruthy N m then { st with error := m }
          else { st with error := JsonValue.str (js "Failed to get response") }
        | none => { st with error := JsonValue.str (js "Failed to get response") }
  { st1 with isLoading := false }

/-- The rest of `Chat.handleSendMessage` once `askQuestion` has thrown. -/
def chatAskRejected (N : NumberSemantics) (st : ChatState) (err : AskError) : ChatState :=
  { chatCatch N st err with isLoading := false }

/-- The state of a mounted `ChatPage` inside its `LanguageProvider`: the
language context, the page state, the state of the `Chat` it renders (present
exactly when `sessionId` is truthy), the bodies of all requests sent so far,
and, for every call of `Chat.handleSendMessage` that has not returned, the
mount of `Chat` it belongs to.  An uncaught error while rendering would unmount
the whole tree, after which nothing happens; the model lets events go on, which
only adds behaviours. -/
structure ChatPageState where
  lang : LanguageState
  sessionId : Option JsonValue
  documentName : Option JsonValue
  chat : Option ChatState
  chatMount : Nat
  requests : List AskQuestionRequest
  pendingAsks : List Nat

/-- A freshly mounted `ChatPage`: `useState(null)`, `useState('')`. -/
def ChatPageState.init (window : Option Storage) : ChatPageState :=
  { lang := mountLanguageProvider window
    sessionId := some JsonValue.null
    documentName := some (JsonValue.str [])
    chat := none
    chatMount := 0
    requests := []
    pendingAsks := [] }

/-- The props `ChatPage` passes to `Chat`. -/
def chatProps (s : ChatPageState) : ChatProps :=
  { sessionId := s.sessionId, documentName := s.documentName, currentLanguage := s.lang.language }

/-- Re-render of `ChatPage` at time `now`: `Chat` is rendered exactly when
`sessionId` is truthy, keeps its state while it stays rendered, and starts
from its initial state when it appears. -/
def renderChatPage (N : NumberSemantics) (s : ChatPageState) (now : Nat) : ChatPageState :=
  if truthyOpt N s.sessionId then
    match s.chat with
    | some _ => s
    | none => { s with chat := some (ChatState.init (chatProps s) now), chatMount := s.chatMount + 1 }
  else { s with chat := none }

/-- `handleUploadSuccess(response)` of `ChatPage`.  Reading `session_id` from
`null` throws before any state is set. -/
def handleUploadSuccess (s : ChatPageState) (response : JsonValue) : ChatPageState :=
  match getProp (js "session_id") response with
  | Got.threw => s
  | sessionId =>
    { s with
      sessionId := sessionId.toOption
      documentName := (getProp (js "document_name") response).toOption }

/-- What can happen on the chat page. -/
inductive PageEvent where
  /-- a language button calls `setLanguage`. -/
  | setLanguage (newLanguage : JsString) : PageEvent
  /-- `Upload` calls `onUploadSuccess(response)`. -/
  | uploadSuccess (response : JsonValue) (now : Nat) : PageEvent
  /-- click on the button that starts a new upload. -/
  | uploadNewDocument : PageEvent
  /-- the user edits the question box. -/
  | changeInput (value : JsString) : PageEvent
  /-- click on the send button. -/
  | clickSend (now : Nat) : PageEvent
  /-- `keypress` in the question box. -/
  | keyPress (key : JsString) (shiftKey : Bool) (now : Nat) : PageEvent
  /-- the `askQuestion` awaited by the pending call at position `i` resolves. -/
  | askResolved (i : Nat) (now : Nat) (data : JsonValue) (typeError : JsString) : PageEvent
  /-- the `askQuestion` awaited by the pending call at position `i` throws. -/
  | askRejected (i : Nat) (err : AskError) : PageEvent

/-- `Chat.handleSendMessage` run on the page: the state of `Chat` is updated,
and a request that was sent is recorded with the pending call. -/
def pageSend (s : ChatPageState) (now : Nat) : ChatPageState :=
  match s.chat with
  | none => s
  | some st =>
    match Chat.handleSendMessage (chatProps s) st now with
    | (st1, none) => { s with chat := some st1 }
    | (st1, some request) =>
      { s with
        chat := some st1
        requests := s.requests ++ [request]
        pendingAsks := s.pendingAsks ++ [s.chatMount] }

/-- The pending call at position `i` returns after `finish` has run on the
state of the `Chat` it belongs to, if that `Chat` is still mounted. -/
def pageSettle (s : ChatPageState) (i : Nat) (finish : ChatState → ChatState) : ChatPageState :=
  match s.pendingAsks.get? i with
  | none => s
  | some mount =>
    { s with
      pendingAsks := s.pendingAsks.eraseIdx i
      chat := match s.chat with
        | some st => if mount = s.chatMount then some (finish st) else some st
        | none => none }

/-- The handler an event runs, followed by the re-render it causes. -/
def pageStep (N : NumberSemantics) (s : ChatPageState) : PageEvent → ChatPageState
  | PageEvent.setLanguage newLanguage => { s with lang := setLanguage s.lang newLanguage }
  | PageEvent.uploadSuccess response now => renderChatPage N (handleUploadSuccess s response) now
  | PageEvent.uploadNewDocument =>
    renderChatPage N
      { s with sessionId := some JsonValue.null, documentName := some (JsonValue.str []) } 0
  | PageEvent.changeInput value =>
    match s.chat with
    | some st => { s with chat := some { st with inputValue := value } }
    | none => s
  | PageEvent.clickSend now => pageSend s now
  | PageEvent.keyPress key shiftKey now =>
    if key = js "Enter" && !shiftKey then pageSend s now else s
  | PageEvent.askResolved i now data typeError =>
    pageSettle s i (fun st => chatAskResolved N st now data typeError)
  | PageEvent.askRejected i err => pageSettle s i (fun st => chatAskRejected N st err)

/-- The state of the chat page after a sequence of events. -/
def pageRun (N : NumberSemantics) (s : ChatPageState) (es : List PageEvent) : ChatPageState :=
  es.foldl (pageStep N) s

/-- The `session_id` that an event returns to the page, if the event is a
successful upload: an `onUploadSuccess(response)` whose response could be
read. -/
def uploadedSessionId : PageEvent → Option (Option JsonValue)
  | PageEvent.uploadSuccess response _ =>
    match getProp (js "session_id") response with
    | Got.threw => none
    | sessionId => some sessionId.toOption
  | _ => none

/-- The `session_id` returned by the most recent successful upload among the
events (in the order they happened), if there was one. -/
def lastUploadedSessionId : List PageEvent → Option (Option JsonValue)
  | [] => none
  | e :: es =>
    match lastUploadedSessionId es with
    | some v => some v
    | none => uploadedSessionId e

/-- An upload response with session id `abc` for the document `a.pdf`. -/
def sampleUploadResponse : JsonValue :=
  JsonValue.obj [(js "session_id", JsonValue.str (js "abc")),
    (js "document_name", JsonValue.str (js "a.pdf"))]

/-- A visit of the chat page: choose Hindi, upload, type a question. -/
def samplePageSession : List PageEvent :=
  [PageEvent.setLanguage (js "hi"), PageEvent.uploadSuccess sampleUploadResponse 10,
   PageEvent.changeInput (js "What is this?")]

/-! ## React front-end: `setLanguage` on arbitrary values, and `App.jsx` -/

/-- `['en', 'hi', 'mr'].includes(v)` for an argument `v` that may be any value
(`none` is `undefined`): `includes` compares with SameValueZero, so only a
string can be found. -/
def includesValue (xs : List JsString) : Option JsonValue → Bool
  | some (JsonValue.str s) => xs.contains s
  | _ => false

/-- The function `setLanguage(newLanguage)` of `LanguageProvider` called with
any value: a value that passes the `includes` test is a string, with which the
state is set and stored. -/
def setLanguageValue (s : LanguageState) (newLanguage : Option JsonValue) : LanguageState :=
  if !includesValue validLanguages newLanguage then s
  else
    match newLanguage with
    | some (JsonValue.str l) => setLanguage s l
    | _ => s

/-- The language exposed by a provider mounted in `window` after a sequence of
`setLanguage` calls. -/
def languageAfter (window : Option Storage) (calls : List (Option JsonValue)) : LanguageState :=
  calls.foldl setLanguageValue (mountLanguageProvider window)

/-- The initial value of `currentPage` in `AppContent`: `useState('home')`. -/
def currentPageInit : JsString := js "home"

/-- The callbacks of `AppContent` that set `currentPage`. -/
inductive AppEvent where
  /-- `Home` calls `onStartChat`, which is `goToChat`. -/
  | onStartChat : AppEvent
  /-- `ChatPage` calls `goHome`, which is `goToHome`. -/
  | goHome : AppEvent
deriving DecidableEq, Repr

/-- `goToChat` and `goToHome`. -/
def appStep (_currentPage : JsString) : AppEvent → JsString
  | AppEvent.onStartChat => js "chat"
  | AppEvent.goHome => js "home"

/-- The value of `currentPage` after a sequence of callbacks. -/
def appRun (es : List AppEvent) : JsString := es.foldl appStep currentPageInit

/-- What `AppContent` renders inside `main`. -/
inductive View where
  | home : View
  | chatPage : View
deriving DecidableEq, Repr

/-- The conditional `currentPage === 'home' ? <Home/> : <ChatPage/>`. -/
def renderMain (currentPage : JsString) : View :=
  if currentPage = js "home" then View.home else View.chatPage

/-- The keys of the English table. -/
def englishKeys : List JsString := translations_en.map (fun e => e.1)

/-- `translations[language][key]`, `none` when the language or the key is
missing. -/
def ownString (language key : JsString) : Option JsString :=
  (lookup language translations).bind (lookup key)

/-! ## React front-end: `components/Upload.jsx` -/

/-- `s.endsWith(p)`. -/
def endsWith (s p : JsString) : Bool := startsWith s.reverse p.reverse

/-- `String.prototype.toLowerCase` restricted to what is exact without the
Unicode tables: the letters `A` to `Z` are mapped to `a` to `z`, every other
code unit is kept.  The handlers take the runtime's `toLowerCase` as an
argument; this one is used for concrete runs on ASCII names. -/
def asciiLowerCase (s : JsString) : JsString :=
  s.map (fun c => if 65 ≤ c ∧ c ≤ 90 then c + 32 else c)

/-- The constant `50 * 1024 * 1024`. -/
def maxFileSize : Nat := 50 * 1024 * 1024

/-- The state of a mounted `Upload`, with the first file of its file input
(`fileInputRef.current?.files?.[0]`, `none` when `undefined`). -/
structure UploadState where
  fileName : JsString
  error : JsonValue
  uploading : Bool
  inputFile : Option File

/-- The initial state of `Upload`. -/
def UploadState.init : UploadState :=
  { fileName := [], error := JsonValue.str [], uploading := false, inputFile := none }

/-- The type test of `handleUpload`: the file is refused when
`!file.type.includes('pdf') && !file.name.toLowerCase().endsWith('.pdf')`. -/
def failsTypeCheck (toLowerCase : JsString → JsString) (file : File) : Bool :=
  !includes file.type (js "pdf") && !endsWith (toLowerCase file.name) (js ".pdf")

/-- `Upload.handleUpload` up to `await uploadPDF(file)`: the new state, and the
file passed to `uploadPDF` if it was called. -/
def Upload.handleUpload (toLowerCase : JsString → JsString) (st : UploadState) :
    UploadState × Option File :=
  match st.inputFile with
  | none => ({ st with error := JsonValue.str (js "Please select a PDF file") }, none)
  | some file =>
    if failsTypeCheck toLowerCase file then
      ({ st with error := JsonValue.str (js "Please upload a valid PDF file") }, none)
    else if file.size > maxFileSize then
      ({ st with error := JsonValue.str (js "File size must be less than 50MB") }, none)
    else ({ st with uploading := true, error := JsonValue.str [] }, some file)

/-- The value of `error.response?.data?.detail || error.message ||
'Failed to upload PDF. Please try again.'`. -/
def uploadErrorMessage (N : NumberSemantics) (error : AskError) : JsonValue :=
  let detail := match error.response with
    | some (some data) => (getProp (js "detail") data).toOption
    | _ => none
  if truthyOpt N detail then
    match detail with
    | some d => d
    | none => JsonValue.str (js "Failed to upload PDF. Please try again.")
  else
    match error.message with
    | c :: cs => JsonValue.str (c :: cs)
    | [] => JsonValue.str (js "Failed to upload PDF. Please try again.")

/-- How `uploadPDF(file)` settles, as seen by `handleUpload`. -/
inductive UploadSettle where
  /-- it resolves with `response`; `thrown` is the error that the call
  `onUploadSuccess(response)` throws, if it throws. -/
  | resolved (response : JsonValue) (thrown : Option AskError) : UploadSettle
  /-- it throws `error`. -/
  | rejected (error : AskError) : UploadSettle

/-- The rest of `Upload.handleUpload` once `uploadPDF` has settled: the new
state, and the argument of `onUploadSuccess` if it was called. -/
def Upload.settled (N : NumberSemantics) (st : UploadState) :
    UploadSettle → UploadState × Option JsonValue
  | UploadSettle.resolved response thrown =>
    let st1 := { st with fileName := [], inputFile := none }
    match thrown with
    | none => ({ st1 with uploading := false }, some response)
    | some error =>
      ({ st1 with error := uploadErrorMessage N error, uploading := false }, some response)
  | UploadSettle.rejected error =>
    ({ st with error := uploadErrorMessage N error, uploading := false }, none)

/-- `Upload.handleFileSelect` after the browser has put the selection in the
file input. -/
def Upload.handleFileSelect (st : UploadState) (file : Option File) : UploadState :=
  match file with
  | some f => { st with inputFile := some f, fileName := f.name, error := JsonValue.str [] }
  | none => { st with inputFile := none }

/-- The state of an `Upload` together with what it has done so far: the files
passed to `uploadPDF`, the responses passed to `onUploadSuccess`, and the number
of calls of `handleUpload` waiting for `uploadPDF`. -/
structure UploadRun where
  state : UploadState
  uploaded : List File
  reported : List JsonValue
  pending : Nat

/-- What can happen on a mounted `Upload`. -/
inductive UploadEvent where
  /-- `change` of the file input, whose first file is now `file`. -/
  | selectFile (file : Option File) : UploadEvent
  /-- `click` on the upload button. -/
  | clickUpload : UploadEvent
  /-- the `uploadPDF` of the pending call settles. -/
  | settled (o : UploadSettle) : UploadEvent

/-- The handler an event runs.  The file input is `disabled` while
`isLoading || uploading` and the button while
`!fileName || isLoading || uploading`; a disabled control dispatches no
event. -/
def uploadStep (N : NumberSemantics) (toLowerCase : JsString → JsString) (isLoading : Bool)
    (r : UploadRun) : UploadEvent → UploadRun
  | UploadEvent.selectFile file =>
    if isLoading || r.state.uploading then r
    else { r with state := Upload.handleFileSelect r.state file }
  | UploadEvent.clickUpload =>
    if r.state.fileName.isEmpty || isLoading || r.state.uploading then r
    else
      match Upload.handleUpload toLowerCase r.state with
      | (st, none) => { r with state := st }
      | (st, some file) =>
        { r with state := st, uploaded := r.uploaded ++ [file], pending := r.pending + 1 }
  | UploadEvent.settled o =>
    if r.pending = 0 then r
    else
      match Upload.settled N r.state o with
      | (st, none) => { r with state := st, pending := r.pending - 1 }
      | (st, some response) =>
        { r with state := st, reported := r.reported ++ [response], pending := r.pending - 1 }

/-- A freshly mounted `Upload`. -/
def UploadRun.init : UploadRun :=
  { state := UploadState.init, uploaded := [], reported := [], pending := 0 }

/-- The `Upload` after a sequence of events. -/
def uploadRun (N : NumberSemantics) (toLowerCase : JsString → JsString) (isLoading : Bool)
    (es : List UploadEvent) : UploadRun :=
  es.foldl (uploadStep N toLowerCase isLoading) UploadRun.init

/-- A PDF of exactly `50 * 1024 * 1024` bytes. -/
def sampleFile50MB : File :=
  { name := js "book.pdf", type := js "application/pdf", size := 52428800 }

/-- A text file of 60 MB. -/
def sampleBigText : File := { name := js "notes.txt", type := js "text/plain", size := 62914560 }

/-- A PDF of 60 MB. -/
def sampleBigPdf : File :=
  { name := js "SCAN.PDF", type := js "", size := 62914560 }

/-- The state of an `Upload` whose file input holds `file`. -/
def uploadWith (file : File) : UploadState :=
  { fileName := file.name, error := JsonValue.str [], uploading := false, inputFile := some file }

/-! ## React front-end: the `catch` block of `askQuestion` in `services/api.js` -/

/-- `error.response?.data?.detail`, `none` when `undefined`. -/
def responseDetail (error : AskError) : Option JsonValue :=
  match error.response with
  | some (some data) => (getProp (js "detail") data).toOption
  | _ => none

/-- `error.response?.data?.message`, `none` when `undefined`. -/
def responseMessage (error : AskError) : Option JsonValue :=
  match error.response with
  | some (some data) => (getProp (js "message") data).toOption
  | _ => none

/-- The value of `errorMessage` after the `if` / `else if` chain of the `catch`
block of `askQuestion`, for the error `error` thrown by `api.post`. -/
def askQuestionErrorMessage (N : NumberSemantics) (error : AskError) : JsonValue :=
  match responseDetail error with
  | some d =>
    if jsTruthy N d then d
    else match responseMessage error with
      | some m =>
        if jsTruthy N m then m
        else match error.message with
          | c :: cs => JsonValue.str (c :: cs)
          | [] => JsonValue.str (js "Failed to process question. Please try again.")
      | none =>
        match error.message with
        | c :: cs => JsonValue.str (c :: cs)
        | [] => JsonValue.str (js "Failed to process question. Please try again.")
  | none =>
    match responseMessage error with
    | some m =>
      if jsTruthy N m then m
      else match error.message with
        | c :: cs => JsonValue.str (c :: cs)
        | [] => JsonValue.str (js "Failed to process question. Please try again.")
    | none =>
      match error.message with
      | c :: cs => JsonValue.str (c :: cs)
      | [] => JsonValue.str (js "Failed to process question. Please try again.")

/-- What a call of `askQuestion` throws. -/
inductive Thrown where
  /-- the `customError` built by the `catch` block. -/
  | customError (error : AskError) : Thrown
  /-- the `TypeError` of `new Error(errorMessage)` when `errorMessage` cannot
  be converted to a string. -/
  | typeError : Thrown

/-- The `catch` block of `askQuestion`: `new Error(errorMessage)` converts its
argument with `ToString`, then `response` is copied from the original error. -/
def askQuestionCatch (N : NumberSemantics) (error : AskError) : Thrown :=
  match jsToString N (askQuestionErrorMessage N error) with
  | some message => Thrown.customError { message := message, response := error.response }
  | none => Thrown.typeError

/-- How the `api.post` of `askQuestion` settles. -/
inductive PostSettle where
  /-- it resolves with a response whose `data` is `data`. -/
  | resolved (data : JsonValue) : PostSettle
  /-- the request fails: it throws `error`. -/
  | rejected (error : AskError) : PostSettle

/-- The rest of `askQuestion` once `api.post` has settled: the value returned,
or what is thrown. -/
def askQuestionSettled (N : NumberSemantics) : PostSettle → Except Thrown JsonValue
  | PostSettle.resolved data => Except.ok data
  | PostSettle.rejected error => Except.error (askQuestionCatch N error)

/-- A failed request whose response body is a validation report: `detail` is a
list with one object. -/
def sampleValidationError : AskError :=
  { message := js "Request failed with status code 422"
    response := some (some (JsonValue.obj
      [(js "detail", JsonValue.arr [JsonValue.obj [(js "msg", JsonValue.str (js "field required"))]])])) }

/-- A failed request whose response body has a string `detail`. -/
def sampleNotFoundError : AskError :=
  { message := js "Request failed with status code 404"
    response := some (some (JsonValue.obj [(js "detail", JsonValue.str (js "Session not found"))])) }

/-- A failed upload whose response body carries an empty list as `detail`. -/
def sampleEmptyDetailError : AskError :=
  { message := js "Request failed with status code 422"
    response := some (some (JsonValue.obj [(js "detail", JsonValue.arr [])])) }

/-! # Properties -/

/-! ## Lemmas on strings -/

theorem split_ne_nil (sep : Nat) (s : JsString) : split sep s ≠ [] := by
  induction s with
  | nil => simp [split]
  | cons c cs ih =>
    unfold split
    split
    · simp
    · split <;> simp

theorem split_cons_of_ne {sep c : Nat} (h : c ≠ sep) (cs : JsString) :
    split sep (c :: cs) = (c :: (split sep cs).headD []) :: (split sep cs).tail := by
  have hne := split_ne_nil sep cs
  rw [split, if_neg h]
  cases hs : split sep cs with
  | nil => exact absurd hs hne
  | cons l ls => rfl

theorem split_cons_sep (sep : Nat) (cs : JsString) :
    split sep (sep :: cs) = [] :: split sep cs := by
  rw [split, if_pos rfl]

theorem split_append_sep (sep : Nat) (a b : JsString) :
    split sep (a ++ sep :: b) = split sep a ++ split sep b := by
  induction a with
  | nil => rw [List.nil_append, split_cons_sep]; rfl
  | cons c cs ih =>
    rw [List.cons_append]
    by_cases h : c = sep
    · subst h
      rw [split_cons_sep, split_cons_sep, ih, List.cons_append]
    · rw [split_cons_of_ne h, split_cons_of_ne h, ih]
      cases hs : split sep cs with
      | nil => exact absurd hs (split_ne_nil sep cs)
      | cons l ls => rfl

theorem stringTextOf_nil : stringTextOf [] = none := by decide

theorem appendedOf_nil (N : NumberSemantics) : appendedOf N [] = none := by
  simp [appendedOf, startsWith, js, utf16s, utf16]

/-! ## Lemmas on the stream reader -/

theorem appendedOf_eq_textOf (N : NumberSemantics) (line : JsString) :
    appendedOf N line =
      match textOf line with
      | some text => if jsTruthy N text then jsToString N text else none
      | none => none := by
  unfold appendedOf textOf
  split
  · split
    · rfl
    · split <;> rfl
  · rfl

theorem processLine_eq (N : NumberSemantics) (st : Dom × StreamLocals) (line : JsString) :
    processLine N st line =
      match appendedOf N line with
      | none => st
      | some a => appendText st a := by
  unfold processLine appendedOf
  split
  · split
    · rfl
    · split
      · split
        · split <;> simp_all
        · rfl
      · rfl
  · rfl

theorem setText_append_length (dom : Dom) (m : MessageGroup) (text : JsString) :
    setText (dom ++ [m]) dom.length text = dom ++ [{ m with text := text }] := by
  induction dom with
  | nil => rfl
  | cons d ds ih => simp [setText, ih]

theorem appendText_streamed (dom : Dom) (texts : List JsString) (a : JsString) :
    appendText (streamed dom texts) a = streamed dom (texts ++ [a]) := by
  cases texts with
  | nil => simp [streamed, appendText, addMessage, StreamLocals.init]
  | cons x xs =>
    simp [streamed, appendText, setText_append_length]

theorem afterLines_snoc (N : NumberSemantics) (dom : Dom) (ls : List JsString) (l : JsString) :
    afterLines N dom (ls ++ [l]) = processLine N (afterLines N dom ls) l := by
  simp [afterLines, List.foldl_append]

theorem afterLines_eq (N : NumberSemantics) (dom : Dom) (ls : List JsString) :
    afterLines N dom ls = streamed dom (ls.filterMap (appendedOf N)) := by
  induction ls using List.reverseRecOn with
  | nil => rfl
  | append_singleton ls l ih =>
    rw [afterLines_snoc, ih, processLine_eq, List.filterMap_append]
    cases h : appendedOf N l with
    | none => simp [List.filterMap, h]
    | some a => simp [List.filterMap, h, appendText_streamed]

theorem foldl_processChunk (N : NumberSemantics) (chunks : List JsString)
    (st : Dom × StreamLocals) :
    chunks.foldl (processChunk N) st = (streamLines chunks).foldl (processLine N) st := by
  induction chunks generalizing st with
  | nil => rfl
  | cons c cs ih =>
    simp only [List.foldl_cons, streamLines, List.flatMap_cons, List.foldl_append]
    rw [ih]
    rfl

theorem handleStreamingResponse_eq (N : NumberSemantics) (lang : JsString) (dom : Dom)
    (chunks : List JsString) (end_ : StreamEnd) :
    handleStreamingResponse N lang dom chunks end_ =
      finishStream lang (streamed dom ((streamLines chunks).filterMap (appendedOf N))) end_ := by
  unfold handleStreamingResponse
  rw [foldl_processChunk, ← afterLines_eq]
  rfl

theorem removeTypingIndicator_length (dom : Dom) :
    (removeTypingIndicator dom).length = dom.length := by
  induction dom with
  | nil => rfl
  | cons d ds ih =>
    unfold removeTypingIndicator
    split <;> simp [ih]

theorem removeTypingIndicator_text (dom : Dom) (i : Nat) :
    ((removeTypingIndicator dom).get? i).map (fun m => m.text) =
      (dom.get? i).map (fun m => m.text) := by
  induction dom generalizing i with
  | nil => rfl
  | cons d ds ih =>
    unfold removeTypingIndicator
    split
    · cases i <;> simp
    · cases i with
      | zero => simp
      | succ j => simpa using ih j

theorem botMessageText_streamed (dom : Dom) (texts : List JsString) :
    botMessageText (streamed dom texts) =
      if texts = [] then none else some texts.flatten := by
  cases texts with
  | nil => rfl
  | cons x xs => simp [streamed, botMessageText]

theorem finishStream_locals (lang : JsString) (st : Dom × StreamLocals) (end_ : StreamEnd) :
    (finishStream lang st end_).2 = st.2 := by
  cases end_ <;> simp only [finishStream]
  split <;> rfl

theorem botMessageText_finishStream_of (lang : JsString) (st : Dom × StreamLocals)
    (end_ : StreamEnd) (h1 : ∀ el, st.2.messageEl = some el → el < st.1.length)
    (h2 : st.2.messageEl = none → st.2.fullResponse = []) :
    botMessageText (finishStream lang st end_) = botMessageText st := by
  cases end_ with
  | done =>
    unfold finishStream
    cases hm : st.2.messageEl with
    | none => simp [h2 hm]
    | some el => simp
  | error =>
    simp only [finishStream, botMessageText, addMessage]
    cases hm : st.2.messageEl with
    | none => rfl
    | some el =>
      have hlen : el < (removeTypingIndicator st.1).length := by
        rw [removeTypingIndicator_length]; exact h1 el hm
      simp only []
      rw [List.get?_eq_getElem?, List.getElem?_append_left hlen, ← List.get?_eq_getElem?,
        removeTypingIndicator_text]

theorem botMessageText_finishStream (lang : JsString) (dom : Dom) (texts : List JsString)
    (end_ : StreamEnd) :
    botMessageText (finishStream lang (streamed dom texts) end_) =
      botMessageText (streamed dom texts) := by
  apply botMessageText_finishStream_of
  · cases texts with
    | nil => intro el h; cases h
    | cons x xs => intro el h; simp [streamed] at h ⊢; omega
  · cases texts with
    | nil => intro _; rfl
    | cons x xs => intro h; simp [streamed] at h

theorem shownText_afterLines (N : NumberSemantics) (dom : Dom) (ls : List JsString) :
    shownText (afterLines N dom ls) = (ls.filterMap (appendedOf N)).flatten := by
  rw [afterLines_eq, shownText, botMessageText_streamed]
  split
  · next h => simp [h]
  · rfl

theorem filterMap_split_append {β : Type} (f : JsString → Option β) (hf : f [] = none)
    (c rest : JsString) (hc : wholeLines c = true) :
    (split 10 (c ++ rest)).filterMap f = (split 10 c).filterMap f ++ (split 10 rest).filterMap f := by
  unfold wholeLines at hc
  rcases Bool.or_eq_true _ _ ▸ hc with hc | hc
  · have hc0 : c = [] := List.isEmpty_iff.mp hc
    subst hc0
    simp [split, hf]
  · have hc : c.getLast? = some 10 := by simpa using hc
    obtain ⟨body, rfl⟩ := List.getLast?_eq_some_iff.mp hc
    have h1 : split 10 (body ++ [10] ++ rest) = split 10 body ++ split 10 rest := by
      rw [List.append_assoc]
      exact split_append_sep 10 body rest
    have h2 : split 10 (body ++ [10]) = split 10 body ++ [[]] := by
      rw [split_append_sep]; rfl
    rw [h1, h2]
    simp [List.filterMap_append, hf]

theorem filterMap_streamLines {β : Type} (f : JsString → Option β) (hf : f [] = none)
    (chunks : List JsString) (hw : ∀ c ∈ chunks, wholeLines c = true) :
    (streamLines chunks).filterMap f = (split 10 chunks.flatten).filterMap f := by
  induction chunks with
  | nil => simp [streamLines, split, hf]
  | cons c cs ih =>
    have hc : wholeLines c = true := hw c (List.mem_cons_self _ _)
    have hcs : ∀ c ∈ cs, wholeLines c = true := fun x hx => hw x (List.mem_cons_of_mem _ hx)
    rw [List.flatten_cons, filterMap_split_append f hf c _ hc, ← ih hcs]
    simp [streamLines, List.filterMap_append]

theorem appendedOf_eq_stringTextOf (N : NumberSemantics) (line : JsString)
    (h : stringTexts N line = true) : appendedOf N line = stringTextOf line := by
  rw [appendedOf_eq_textOf]
  unfold stringTexts at h
  unfold stringTextOf
  cases ht : textOf line with
  | none => rfl
  | some text =>
    rw [ht] at h
    cases text with
    | str s =>
      cases s with
      | nil => simp [jsTruthy]
      | cons c cs => simp [jsTruthy, jsToString]
    | null => simp [jsTruthy]
    | bool b => simp at h; simp [h]
    | num lit => simp at h; simp [h]
    | arr items => simp [jsTruthy] at h
    | obj ms => simp [jsTruthy] at h

theorem stringTextOf_ne_nil (line s : JsString) (h : stringTextOf line = some s) : s ≠ [] := by
  unfold stringTextOf at h
  split at h
  · cases h; simp
  · cases h

theorem flatten_eq_nil_of_ne_nil (xs : List JsString) (h : ∀ x ∈ xs, x ≠ [])
    (hf : xs.flatten = []) : xs = [] := by
  cases xs with
  | nil => rfl
  | cons x rest =>
    have hx : x ≠ [] := h x (List.mem_cons_self _ _)
    simp at hf
    exact absurd hf.1 hx

/-! ## The stream reader: claims C1 to C3 -/

/-- C1 (as stated) fails: for the one-chunk response `data: {"text":true}` plus
a line feed, a whole line whose `text` is truthy but not a string, the reader
shows the bubble `true`, while no line has a non-empty string `text`. -/
theorem handleStreamingResponse_appends_non_string_text :
    (∀ c ∈ [js "data: \x7b\"text\":true\x7d\n"], wholeLines c = true) ∧
    botMessageText (handleStreamingResponse plainNumbers (js "en") []
      [js "data: \x7b\"text\":true\x7d\n"] StreamEnd.done) = some (js "true") ∧
    expectedText [js "data: \x7b\"text\":true\x7d\n"] = [] := by
  decide

/-- C1 (amended): for every streamed response whose chunks each contain only
whole lines and none of whose lines carries a truthy non-string `text`, the
accumulated response equals the in-order concatenation of the `text` fields of
all lines of the response that start with `data: ` and whose payload parses as
JSON with a non-empty string `text`; the bubble of the answer shows exactly
that text, and exists exactly when it is not empty. -/
theorem handleStreamingResponse_concat_string_texts (N : NumberSemantics) (lang : JsString)
    (dom : Dom) (chunks : List JsString) (end_ : StreamEnd)
    (hw : ∀ c ∈ chunks, wholeLines c = true)
    (hs : ∀ line ∈ streamLines chunks, stringTexts N line = true) :
    (handleStreamingResponse N lang dom chunks end_).2.fullResponse = expectedText chunks ∧
    botMessageText (handleStreamingResponse N lang dom chunks end_) =
      (if expectedText chunks = [] then none else some (expectedText chunks)) := by
  have hlines : (streamLines chunks).filterMap (appendedOf N) =
      (split 10 chunks.flatten).filterMap stringTextOf := by
    rw [← filterMap_streamLines stringTextOf stringTextOf_nil chunks hw]
    apply List.filterMap_congr
    intro line hl
    exact appendedOf_eq_stringTextOf N line (hs line hl)
  have hne : ∀ x ∈ (split 10 chunks.flatten).filterMap stringTextOf, x ≠ [] := by
    intro x hx
    obtain ⟨line, _, hline⟩ := List.mem_filterMap.mp hx
    exact stringTextOf_ne_nil line x hline
  rw [handleStreamingResponse_eq, hlines]
  constructor
  · rw [finishStream_locals]
    unfold expectedText
    cases (split 10 chunks.flatten).filterMap stringTextOf <;> rfl
  · rw [botMessageText_finishStream, botMessageText_streamed]
    unfold expectedText
    by_cases h : (split 10 chunks.flatten).filterMap stringTextOf = []
    · simp [h]
    · have h2 : ((split 10 chunks.flatten).filterMap stringTextOf).flatten ≠ [] :=
        fun hf => h (flatten_eq_nil_of_ne_nil _ hne hf)
      simp [h, h2]

/-- Witness of C1 (amended): two chunks of whole lines, with a blank line and a
comment line in between, show `Hi there`. -/
theorem handleStreamingResponse_concat_string_texts_witness :
    botMessageText (handleStreamingResponse plainNumbers (js "en") []
      [js "data: \x7b\"text\":\"Hi\"\x7d\n\n", js ": ping\ndata: \x7b\"text\":\" there\"\x7d\n"]
      StreamEnd.done) =
      (if expectedText [js "data: \x7b\"text\":\"Hi\"\x7d\n\n",
          js ": ping\ndata: \x7b\"text\":\" there\"\x7d\n"] = [] then none
        else some (expectedText [js "data: \x7b\"text\":\"Hi\"\x7d\n\n",
          js ": ping\ndata: \x7b\"text\":\" there\"\x7d\n"])) ∧
    expectedText [js "data: \x7b\"text\":\"Hi\"\x7d\n\n",
      js ": ping\ndata: \x7b\"text\":\" there\"\x7d\n"] = js "Hi there" :=
  ⟨(handleStreamingResponse_concat_string_texts plainNumbers (js "en") []
      [js "data: \x7b\"text\":\"Hi\"\x7d\n\n", js ": ping\ndata: \x7b\"text\":\" there\"\x7d\n"]
      StreamEnd.done (by decide) (by decide)).2, by decide⟩

/-- C2 (as stated) fails: the line `data: {"text":{"toString":1}}` is a data
event with truthy `text`, but `+=` cannot convert that object to a string, the
error is swallowed by the `catch`, and no bot message element is created. -/
theorem truthy_text_without_bubble :
    truthyText plainNumbers (js "data: \x7b\"text\":\x7b\"toString\":1\x7d\x7d") = true ∧
    afterLines plainNumbers [] [js "data: \x7b\"text\":\x7b\"toString\":1\x7d\x7d"] =
      ([], StreamLocals.init) := by
  decide

/-- C2 (amended): during one stream at most one bot message element is created,
on the first data event whose truthy `text` converts to a string; the
transcript that was there is left as it is; after any number of events that
element shows the concatenation of all texts appended so far; and the text
shown after any event is a prefix of the text shown after every later event. -/
theorem stream_single_growing_bubble (N : NumberSemantics) (dom : Dom)
    (ls later : List JsString) :
    (afterLines N dom ls).1.length ≤ dom.length + 1 ∧
    (afterLines N dom ls).1.take dom.length = dom ∧
    (afterLines N dom ls).2.messageEl =
      (if ls.filterMap (appendedOf N) = [] then none else some dom.length) ∧
    (afterLines N dom ls).1.length =
      (if ls.filterMap (appendedOf N) = [] then dom.length else dom.length + 1) ∧
    botMessageText (afterLines N dom ls) =
      (if ls.filterMap (appendedOf N) = [] then none
        else some (ls.filterMap (appendedOf N)).flatten) ∧
    (afterLines N dom ls).2.fullResponse = (ls.filterMap (appendedOf N)).flatten ∧
    shownText (afterLines N dom ls) <+: shownText (afterLines N dom (ls ++ later)) := by
  refine ⟨?_, ?_, ?_, ?_, ?_, ?_, ?_⟩
  · rw [afterLines_eq]
    cases ls.filterMap (appendedOf N) <;> simp [streamed]
  · rw [afterLines_eq]
    cases ls.filterMap (appendedOf N) <;> simp [streamed]
  · rw [afterLines_eq]
    cases ls.filterMap (appendedOf N) <;> simp [streamed, StreamLocals.init]
  · rw [afterLines_eq]
    cases ls.filterMap (appendedOf N) <;> simp [streamed]
  · rw [afterLines_eq, botMessageText_streamed]
  · rw [afterLines_eq]
    cases ls.filterMap (appendedOf N) <;> simp [streamed, StreamLocals.init]
  · rw [shownText_afterLines, shownText_afterLines, List.filterMap_append, List.flatten_append]
    exact List.prefix_append _ _

/-- C3: a line that does not start with `data: `, or whose payload is not
valid JSON, or that has no truthy `text`, leaves the reader's state as it is;
the stream is read as if the line were absent; a later data line with a
non-empty string `text` is appended whatever came before it; and the
accumulated response is the concatenation over all lines of all chunks. -/
theorem skipped_line_contributes_nothing (N : NumberSemantics) (line : JsString)
    (h : startsWith line (js "data: ") = false ∨ (JSONparse (slice 6 line)).isNone = true ∨
      truthyText N line = false) :
    (∀ st, processLine N st line = st) ∧
    (∀ dom before after,
      afterLines N dom (before ++ line :: after) = afterLines N dom (before ++ after)) ∧
    (∀ st later s, stringTextOf later = some s →
      (processLine N st later).2.fullResponse = st.2.fullResponse ++ s) ∧
    (∀ lang dom chunks end_,
      (handleStreamingResponse N lang dom chunks end_).2.fullResponse =
        ((streamLines chunks).filterMap (appendedOf N)).flatten) := by
  have hnone : appendedOf N line = none := by
    rcases h with h | h | h
    · simp [appendedOf, h]
    · unfold appendedOf
      cases hp : JSONparse (slice 6 line) with
      | none => simp
      | some v => simp [hp] at h
    · rw [appendedOf_eq_textOf]
      unfold truthyText at h
      cases ht : textOf line with
      | none => rfl
      | some text => simp [ht] at h; simp [h]
  refine ⟨?_, ?_, ?_, ?_⟩
  · intro st
    rw [processLine_eq, hnone]
  · intro dom before after
    rw [afterLines_eq, afterLines_eq, List.filterMap_append, List.filterMap_append,
      List.filterMap_cons_none hnone]
  · intro st later s hs
    have hap : appendedOf N later = some s := by
      rw [appendedOf_eq_textOf]
      unfold stringTextOf at hs
      cases ht : textOf later with
      | none => simp [ht] at hs
      | some text =>
        rw [ht] at hs
        cases text with
        | str x =>
          cases x with
          | nil => simp at hs
          | cons c cs => simp at hs; subst hs; simp [jsTruthy, jsToString]
        | _ => simp at hs
    rw [processLine_eq, hap]
    simp only [appendText]
    cases st.2.messageEl <;> rfl
  · intro lang dom chunks end_
    rw [handleStreamingResponse_eq, finishStream_locals]
    cases (streamLines chunks).filterMap (appendedOf N) <;> rfl

/-- Witness of C3: a comment line between two data lines changes nothing. -/
theorem skipped_line_contributes_nothing_witness :
    startsWith (js ": keep-alive") (js "data: ") = false ∧
    afterLines plainNumbers [] ([js "data: \x7b\"text\":\"a\"\x7d"] ++ js ": keep-alive" ::
        [js "data: \x7b\"text\":\"b\"\x7d"]) =
      afterLines plainNumbers [] ([js "data: \x7b\"text\":\"a\"\x7d"] ++ [js "data: \x7b\"text\":\"b\"\x7d"]) :=
  ⟨by decide, (skipped_line_contributes_nothing plainNumbers (js ": keep-alive")
      (Or.inl (by decide))).2.1 [] [js "data: \x7b\"text\":\"a\"\x7d"] [js "data: \x7b\"text\":\"b\"\x7d"]⟩

/-! ## Lemmas on the typing indicator -/

theorem typingCount_append (a b : Dom) : typingCount (a ++ b) = typingCount a + typingCount b := by
  simp [typingCount, List.filter_append]

theorem typingCount_addMessage (dom : Dom) (text : JsString) (sender : Sender) :
    typingCount (addMessage dom text sender).1 = typingCount dom := by
  simp [addMessage, typingCount_append, typingCount]

theorem typingCount_addTypingIndicator (dom : Dom) :
    typingCount (addTypingIndicator dom) = typingCount dom + 1 := by
  simp [addTypingIndicator, typingCount_append, typingCount]

theorem typingCount_cons (d : MessageGroup) (ds : Dom) :
    typingCount (d :: ds) = (if (d.typing && d.attached) = true then 1 else 0) + typingCount ds := by
  unfold typingCount
  rw [List.filter_cons]
  split
  · simp; omega
  · simp

theorem typingCount_removeTypingIndicator (dom : Dom) :
    typingCount (removeTypingIndicator dom) = typingCount dom - 1 := by
  induction dom with
  | nil => rfl
  | cons d ds ih =>
    unfold removeTypingIndicator
    by_cases h : (d.typing && d.attached) = true
    · rw [if_pos h, typingCount_cons, typingCount_cons, if_pos h]
      simp
    · rw [if_neg h, typingCount_cons, typingCount_cons, if_neg h, ih]
      omega

theorem typingCount_clearMessages (dom : Dom) : typingCount (clearMessages dom) = 0 := by
  induction dom with
  | nil => rfl
  | cons d ds ih =>
    have h : clearMessages (d :: ds) = { d with attached := false } :: clearMessages ds := rfl
    rw [h, typingCount_cons, ih]
    simp

theorem typingCount_setText (dom : Dom) (el : Nat) (text : JsString) :
    typingCount (setText dom el text) = typingCount dom := by
  induction dom generalizing el with
  | nil => rfl
  | cons d ds ih =>
    cases el with
    | zero =>
      have h : setText (d :: ds) 0 text = { d with text := text } :: ds := rfl
      rw [h, typingCount_cons, typingCount_cons]
    | succ j =>
      have h : setText (d :: ds) (j + 1) text = d :: setText ds j text := rfl
      rw [h, typingCount_cons, typingCount_cons, ih]

theorem typingCount_appendText (st : Dom × StreamLocals) (a : JsString) :
    typingCount (appendText st a).1 = typingCount st.1 := by
  unfold appendText
  cases st.2.messageEl with
  | none => exact typingCount_addMessage _ _ _
  | some el => exact typingCount_setText _ _ _

theorem typingCount_processLine (N : NumberSemantics) (st : Dom × StreamLocals) (line : JsString) :
    typingCount (processLine N st line).1 = typingCount st.1 := by
  rw [processLine_eq]
  cases appendedOf N line with
  | none => rfl
  | some a => exact typingCount_appendText st a

theorem typingCount_processChunk (N : NumberSemantics) (st : Dom × StreamLocals)
    (chunk : JsString) : typingCount (processChunk N st chunk).1 = typingCount st.1 := by
  unfold processChunk
  generalize split 10 chunk = ls
  induction ls generalizing st with
  | nil => rfl
  | cons l ls ih => rw [List.foldl_cons, ih, typingCount_processLine]

theorem typingCount_finishStream (lang : JsString) (st : Dom × StreamLocals) (end_ : StreamEnd) :
    typingCount (finishStream lang st end_).1 ≤ typingCount st.1 := by
  cases end_ with
  | done =>
    simp only [finishStream]
    split
    · exact Nat.le_of_eq (typingCount_addMessage _ _ _)
    · exact Nat.le_refl _
  | error =>
    simp only [finishStream]
    rw [typingCount_addMessage, typingCount_removeTypingIndicator]
    exact Nat.sub_le _ _

/-! ## Lemmas on the chat handler -/

theorem setIsWaitingForResponse_eq (s : AppState) (v : Bool) :
    (setIsWaitingForResponse s v).isWaitingForResponse = v ∧
    (setIsWaitingForResponse s v).isChatEnabled = s.isChatEnabled ∧
    (setIsWaitingForResponse s v).chatMessages = s.chatMessages ∧
    (setIsWaitingForResponse s v).pendingAsks = s.pendingAsks ∧
    (setIsWaitingForResponse s v).askRequests = s.askRequests ∧
    (setIsWaitingForResponse s v).currentLanguage = s.currentLanguage ∧
    (setIsWaitingForResponse s v).pendingUploads = s.pendingUploads := by
  unfold setIsWaitingForResponse
  split
  · next h => exact ⟨h, rfl, rfl, rfl, rfl, rfl, rfl⟩
  · exact ⟨rfl, rfl, rfl, rfl, rfl, rfl, rfl⟩

theorem askCatch_fields (s : AppState) :
    (askCatch s).isWaitingForResponse = s.isWaitingForResponse ∧
    (askCatch s).isChatEnabled = s.isChatEnabled ∧
    (askCatch s).pendingAsks = s.pendingAsks ∧
    (askCatch s).askRequests = s.askRequests ∧
    (askCatch s).pendingUploads = s.pendingUploads ∧
    typingCount (askCatch s).chatMessages = typingCount s.chatMessages - 1 := by
  refine ⟨rfl, rfl, rfl, rfl, rfl, ?_⟩
  simp only [askCatch, showToast]
  rw [typingCount_addMessage, typingCount_removeTypingIndicator]

theorem showJsonAnswer_fields (N : NumberSemantics) (s : AppState) (data : JsonValue) :
    (showJsonAnswer N s data).isWaitingForResponse = s.isWaitingForResponse ∧
    (showJsonAnswer N s data).isChatEnabled = s.isChatEnabled ∧
    (showJsonAnswer N s data).pendingAsks = s.pendingAsks ∧
    (showJsonAnswer N s data).askRequests = s.askRequests ∧
    (showJsonAnswer N s data).pendingUploads = s.pendingUploads ∧
    typingCount (showJsonAnswer N s data).chatMessages ≤ typingCount s.chatMessages := by
  have hc := askCatch_fields s
  unfold showJsonAnswer
  split
  · exact ⟨hc.1, hc.2.1, hc.2.2.1, hc.2.2.2.1, hc.2.2.2.2.1, by rw [hc.2.2.2.2.2]; exact Nat.sub_le _ _⟩
  · exact ⟨rfl, rfl, rfl, rfl, rfl, Nat.le_of_eq (typingCount_addMessage _ _ _)⟩
  · split
    · exact ⟨hc.1, hc.2.1, hc.2.2.1, hc.2.2.2.1, hc.2.2.2.2.1, by rw [hc.2.2.2.2.2]; exact Nat.sub_le _ _⟩
    · exact ⟨rfl, rfl, rfl, rfl, rfl, Nat.le_of_eq (typingCount_addMessage _ _ _)⟩

theorem askFinally_fields (s : AppState) (i : Nat) :
    (askFinally s i).isWaitingForResponse = false ∧
    (askFinally s i).isChatEnabled = s.isChatEnabled ∧
    (askFinally s i).pendingAsks = s.pendingAsks.eraseIdx i ∧
    (askFinally s i).askRequests = s.askRequests ∧
    (askFinally s i).chatMessages = s.chatMessages ∧
    (askFinally s i).pendingUploads = s.pendingUploads := by
  have h := setIsWaitingForResponse_eq s false
  simp only [askFinally]
  exact ⟨h.1, h.2.1, by rw [h.2.2.2.1], h.2.2.2.2.1, h.2.2.1, h.2.2.2.2.2.2⟩

theorem pendingAsks_cases (s : AppState) (h : s.pendingAsks.length ≤ 1) :
    s.pendingAsks = [] ∨ ∃ p, s.pendingAsks = [p] := by
  cases hp : s.pendingAsks with
  | nil => exact Or.inl rfl
  | cons p ps =>
    cases ps with
    | nil => exact Or.inr ⟨p, rfl⟩
    | cons q qs => rw [hp] at h; simp at h

theorem handleSendMessage_sends (s : AppState) (hq : (trim s.questionInputValue).isEmpty = false)
    (hw : s.isWaitingForResponse = false) (hc : s.isChatEnabled = true) :
    (handleSendMessage s).isWaitingForResponse = true ∧
    (handleSendMessage s).isChatEnabled = true ∧
    (handleSendMessage s).pendingAsks = s.pendingAsks ++ [AskPhase.fetching] ∧
    (handleSendMessage s).askRequests =
      s.askRequests ++ [{ question := trim s.questionInputValue, lang := s.currentLanguage }] ∧
    (handleSendMessage s).chatMessages =
      addTypingIndicator (addMessage s.chatMessages (trim s.questionInputValue) Sender.user).1 ∧
    (handleSendMessage s).pendingUploads = s.pendingUploads := by
  have h := setIsWaitingForResponse_eq s true
  unfold handleSendMessage
  simp only [hq, hw, hc, Bool.or_self, Bool.not_true, Bool.false_eq_true, if_false]
  refine ⟨h.1, h.2.1.trans hc, ?_, ?_, ?_, h.2.2.2.2.2.2⟩
  · simp only [h.2.2.2.1]
  · simp only [h.2.2.2.2.1, h.2.2.2.2.2.1]
  · simp only [h.2.2.1]

theorem handleSendMessage_blocked (s : AppState)
    (h : (trim s.questionInputValue).isEmpty = true ∨ s.isWaitingForResponse = true ∨
      s.isChatEnabled = false) : handleSendMessage s = s := by
  unfold handleSendMessage
  rcases h with h | h | h <;> simp [h]

theorem continueAsk_none (N : NumberSemantics) (s : AppState) (i : Nat) (ev : AskSettle)
    (h : s.pendingAsks.get? i = none) : continueAsk N s i ev = s := by
  unfold continueAsk
  rw [h]

theorem chatInvariant_of_finished (s r : AppState) (hs : ChatInvariant s)
    (hw : r.isWaitingForResponse = false) (hp : r.pendingAsks = [])
    (hc : r.isChatEnabled = s.isChatEnabled) (hr : r.askRequests = s.askRequests)
    (ht : typingCount r.chatMessages = 0) : ChatInvariant r := by
  obtain ⟨_, _, _, _, h5⟩ := hs
  refine ⟨by simp [hp], by simp [hp, hw], by simp [hp, ht, fetchingCount], by simp [hp], ?_⟩
  rw [hr, hc]; exact h5

theorem chatInvariant_continueAsk (N : NumberSemantics) (s : AppState) (i : Nat)
    (ev : AskSettle) (hs : ChatInvariant s) :
    ChatInvariant (continueAsk N s i ev) ∧
    (∀ p, s.pendingAsks.get? i = some p → finishes p ev = true →
      (continueAsk N s i ev).isWaitingForResponse = false ∧
      (continueAsk N s i ev).pendingAsks = [] ∧
      typingCount (continueAsk N s i ev).chatMessages = 0 ∧
      (continueAsk N s i ev).isChatEnabled = true) := by
  have hs0 := hs
  obtain ⟨h1, h2, h3, h4, h5⟩ := hs
  rcases pendingAsks_cases s h1 with hp | ⟨p, hp⟩
  · have hn : s.pendingAsks.get? i = none := by rw [hp]; rfl
    rw [continueAsk_none N s i ev hn]
    exact ⟨hs0, fun p hp2 => by rw [hn] at hp2; cases hp2⟩
  · cases i with
    | succ j =>
      have hn : s.pendingAsks.get? (j + 1) = none := by rw [hp]; rfl
      rw [continueAsk_none N s (j + 1) ev hn]
      exact ⟨hs0, fun p hp2 => by rw [hn] at hp2; cases hp2⟩
    | zero =>
      have hg : s.pendingAsks.get? 0 = some p := by rw [hp]; rfl
      have hce : s.isChatEnabled = true := h4 (by rw [hp]; simp)
      have ht1 : typingCount s.chatMessages ≤ 1 := by
        refine Nat.le_trans h3 ?_
        rw [hp]; unfold fetchingCount
        exact Nat.le_trans (List.length_filter_le _ _) (by simp)
      -- a call that has returned
      have fin : ∀ s' : AppState, s'.pendingAsks = [p] → s'.isChatEnabled = s.isChatEnabled →
          s'.askRequests = s.askRequests → typingCount s'.chatMessages = 0 →
          ChatInvariant (askFinally s' 0) ∧
          ((askFinally s' 0).isWaitingForResponse = false ∧ (askFinally s' 0).pendingAsks = [] ∧
            typingCount (askFinally s' 0).chatMessages = 0 ∧
            (askFinally s' 0).isChatEnabled = true) := by
        intro s' hp' hc' hr' ht'
        have hf := askFinally_fields s' 0
        have hpe : (askFinally s' 0).pendingAsks = [] := by rw [hf.2.2.1, hp']; rfl
        have hte : typingCount (askFinally s' 0).chatMessages = 0 := by rw [hf.2.2.2.2.1]; exact ht'
        exact ⟨chatInvariant_of_finished s _ hs0 hf.1 hpe (hf.2.1.trans hc') (hf.2.2.2.1.trans hr') hte,
          hf.1, hpe, hte, (hf.2.1.trans hc').trans hce⟩
      -- a call that stays suspended, in a phase other than `fetching`
      have stay : ∀ (s' : AppState) (q : AskPhase), s'.pendingAsks = [p] →
          s'.isChatEnabled = s.isChatEnabled → s'.askRequests = s.askRequests →
          s'.isWaitingForResponse = s.isWaitingForResponse →
          typingCount s'.chatMessages = 0 → ChatInvariant (setPhase s' 0 q) := by
        intro s' q hp' hc' hr' hw' ht'
        have hpq : (setPhase s' 0 q).pendingAsks = [q] := by simp [setPhase, hp']
        refine ⟨by rw [hpq]; simp, ?_, ?_, ?_, ?_⟩
        · rw [hpq]
          show s'.isWaitingForResponse = _
          rw [hw', h2, hp]; rfl
        · show typingCount s'.chatMessages ≤ _
          rw [ht']; exact Nat.zero_le _
        · intro _
          show s'.isChatEnabled = true
          rw [hc']; exact hce
        · intro h
          show s'.isChatEnabled = true
          rw [hc']; exact hce
      unfold continueAsk
      rw [hg]
      cases p with
      | fetching =>
        have hrm : typingCount (removeTypingIndicator s.chatMessages) = 0 := by
          rw [typingCount_removeTypingIndicator]; omega
        cases ev with
        | fetchRejected =>
          have hc := askCatch_fields s
          have := fin (askCatch s) (hc.2.2.1.trans hp) hc.2.1 hc.2.2.2.1
            (by rw [hc.2.2.2.2.2]; omega)
          exact ⟨this.1, fun _ _ _ => this.2⟩
        | fetchResolved ok contentType hasBody =>
          have hc := askCatch_fields { s with chatMessages := removeTypingIndicator s.chatMessages }
          have hfin := fin (askCatch { s with chatMessages := removeTypingIndicator s.chatMessages })
            (hc.2.2.1.trans hp) hc.2.1 hc.2.2.2.1 (by rw [hc.2.2.2.2.2]; simp [hrm])
          have hst := fun q => stay { s with chatMessages := removeTypingIndicator s.chatMessages } q
            hp rfl rfl rfl hrm
          cases ok with
          | false => exact ⟨hfin.1, fun _ _ _ => hfin.2⟩
          | true =>
            by_cases hes : isEventStream contentType = true
            · cases hasBody with
              | false =>
                simp only [hes, Bool.not_true, Bool.false_eq_true, if_false, if_true]
                exact ⟨hfin.1, fun _ _ _ => hfin.2⟩
              | true =>
                simp only [hes, Bool.not_true, Bool.false_eq_true, if_false, if_true]
                refine ⟨hst _, fun q hq hf => ?_⟩
                cases hq
                simp [finishes, hes] at hf
            · simp only [hes, Bool.not_true, Bool.false_eq_true, if_false]
              refine ⟨hst _, fun q hq hf => ?_⟩
              cases hq
              simp [finishes, hes] at hf
        | jsonRejected => exact ⟨hs0, fun q hq hf => by cases hq; simp [finishes] at hf⟩
        | jsonResolved data => exact ⟨hs0, fun q hq hf => by cases hq; simp [finishes] at hf⟩
        | chunk text => exact ⟨hs0, fun q hq hf => by cases hq; simp [finishes] at hf⟩
        | streamDone => exact ⟨hs0, fun q hq hf => by cases hq; simp [finishes] at hf⟩
        | streamError => exact ⟨hs0, fun q hq hf => by cases hq; simp [finishes] at hf⟩
      | readingJson =>
        have ht0 : typingCount s.chatMessages = 0 := by
          have : fetchingCount s.pendingAsks = 0 := by rw [hp]; rfl
          omega
        cases ev with
        | jsonRejected =>
          have hc := askCatch_fields s
          have := fin (askCatch s) (hc.2.2.1.trans hp) hc.2.1 hc.2.2.2.1
            (by rw [hc.2.2.2.2.2]; omega)
          exact ⟨this.1, fun _ _ _ => this.2⟩
        | jsonResolved data =>
          have hc := showJsonAnswer_fields N s data
          have := fin (showJsonAnswer N s data) (hc.2.2.1.trans hp) hc.2.1 hc.2.2.2.1
            (by have := hc.2.2.2.2.2; omega)
          exact ⟨this.1, fun _ _ _ => this.2⟩
        | fetchRejected => exact ⟨hs0, fun q hq hf => by cases hq; simp [finishes] at hf⟩
        | fetchResolved ok contentType hasBody =>
          exact ⟨hs0, fun q hq hf => by cases hq; simp [finishes] at hf⟩
        | chunk text => exact ⟨hs0, fun q hq hf => by cases hq; simp [finishes] at hf⟩
        | streamDone => exact ⟨hs0, fun q hq hf => by cases hq; simp [finishes] at hf⟩
        | streamError => exact ⟨hs0, fun q hq hf => by cases hq; simp [finishes] at hf⟩
      | streaming locals =>
        have ht0 : typingCount s.chatMessages = 0 := by
          have : fetchingCount s.pendingAsks = 0 := by rw [hp]; rfl
          omega
        cases ev with
        | chunk text =>
          refine ⟨stay { s with chatMessages := (processChunk N (s.chatMessages, locals) text).1 } _
            hp rfl rfl rfl (by
              show typingCount (processChunk N (s.chatMessages, locals) text).1 = 0
              rw [typingCount_processChunk]; exact ht0), fun q hq hf => ?_⟩
          cases hq
          simp [finishes] at hf
        | streamDone =>
          have := fin { s with chatMessages :=
              (finishStream s.currentLanguage (s.chatMessages, locals) StreamEnd.done).1 }
            hp rfl rfl (by
              have hle : typingCount (finishStream s.currentLanguage (s.chatMessages, locals)
                  StreamEnd.done).1 ≤ typingCount s.chatMessages :=
                typingCount_finishStream s.currentLanguage (s.chatMessages, locals) StreamEnd.done
              show typingCount (finishStream s.currentLanguage (s.chatMessages, locals)
                StreamEnd.done).1 = 0
              omega)
          exact ⟨this.1, fun _ _ _ => this.2⟩
        | streamError =>
          have := fin { s with chatMessages :=
              (finishStream s.currentLanguage (s.chatMessages, locals) StreamEnd.error).1 }
            hp rfl rfl (by
              have hle : typingCount (finishStream s.currentLanguage (s.chatMessages, locals)
                  StreamEnd.error).1 ≤ typingCount s.chatMessages :=
                typingCount_finishStream s.currentLanguage (s.chatMessages, locals) StreamEnd.error
              show typingCount (finishStream s.currentLanguage (s.chatMessages, locals)
                StreamEnd.error).1 = 0
              omega)
          exact ⟨this.1, fun _ _ _ => this.2⟩
        | fetchRejected => exact ⟨hs0, fun q hq hf => by cases hq; simp [finishes] at hf⟩
        | fetchResolved ok contentType hasBody =>
          exact ⟨hs0, fun q hq hf => by cases hq; simp [finishes] at hf⟩
        | jsonRejected => exact ⟨hs0, fun q hq hf => by cases hq; simp [finishes] at hf⟩
        | jsonResolved data => exact ⟨hs0, fun q hq hf => by cases hq; simp [finishes] at hf⟩

theorem chatInvariant_congr (s r : AppState) (hs : ChatInvariant s)
    (hp : r.pendingAsks = s.pendingAsks) (hw : r.isWaitingForResponse = s.isWaitingForResponse)
    (hm : r.chatMessages = s.chatMessages) (hc : r.isChatEnabled = s.isChatEnabled)
    (hr : r.askRequests = s.askRequests) : ChatInvariant r := by
  unfold ChatInvariant
  rw [hp, hw, hm, hc, hr]
  exact hs

theorem chatInvariant_init (page : Page) (stored : Option JsString) :
    ChatInvariant (AppState.init page stored) := by
  refine ⟨by simp [AppState.init], by simp [AppState.init], ?_, by simp [AppState.init],
    by simp [AppState.init]⟩
  show typingCount (addMessage [] _ Sender.bot).1 ≤ _
  rw [typingCount_addMessage]
  exact Nat.zero_le _

theorem chatInvariant_handleSendMessage (s : AppState) (hs : ChatInvariant s) :
    ChatInvariant (handleSendMessage s) := by
  by_cases hg : (trim s.questionInputValue).isEmpty = true ∨ s.isWaitingForResponse = true ∨
      s.isChatEnabled = false
  · rw [handleSendMessage_blocked s hg]; exact hs
  · have hq : (trim s.questionInputValue).isEmpty = false := by
      cases h : (trim s.questionInputValue).isEmpty with
      | false => rfl
      | true => exact absurd (Or.inl h) hg
    have hw : s.isWaitingForResponse = false := by
      cases h : s.isWaitingForResponse with
      | false => rfl
      | true => exact absurd (Or.inr (Or.inl h)) hg
    have hc : s.isChatEnabled = true := by
      cases h : s.isChatEnabled with
      | true => rfl
      | false => exact absurd (Or.inr (Or.inr h)) hg
    obtain ⟨h1, h2, h3, h4, h5⟩ := hs
    have hp : s.pendingAsks = [] := by
      rw [hw] at h2
      cases hps : s.pendingAsks with
      | nil => rfl
      | cons p ps => rw [hps] at h2; simp at h2
    have hf := handleSendMessage_sends s hq hw hc
    have ht0 : typingCount s.chatMessages = 0 := by
      have : fetchingCount s.pendingAsks = 0 := by rw [hp]; rfl
      omega
    refine ⟨?_, ?_, ?_, fun _ => hf.2.1, fun _ => hf.2.1⟩
    · rw [hf.2.2.1, hp]; simp
    · rw [hf.1, hf.2.2.1, hp]; rfl
    · rw [hf.2.2.2.2.1, hf.2.2.1, hp, typingCount_addTypingIndicator, typingCount_addMessage, ht0]
      exact Nat.le_refl _

theorem setIsChatEnabled_eq (s : AppState) (v : Bool) :
    (setIsChatEnabled s v).isChatEnabled = v ∧
    (setIsChatEnabled s v).isWaitingForResponse = s.isWaitingForResponse ∧
    (setIsChatEnabled s v).chatMessages = s.chatMessages ∧
    (setIsChatEnabled s v).pendingAsks = s.pendingAsks ∧
    (setIsChatEnabled s v).askRequests = s.askRequests ∧
    (setIsChatEnabled s v).currentLanguage = s.currentLanguage ∧
    (setIsChatEnabled s v).pendingUploads = s.pendingUploads := by
  unfold setIsChatEnabled
  split
  · next h => exact ⟨h, rfl, rfl, rfl, rfl, rfl, rfl⟩
  · exact ⟨rfl, rfl, rfl, rfl, rfl, rfl, rfl⟩

theorem handleUploadSettled_fields (s : AppState) (o : UploadOutcome) :
    (handleUploadSettled s o).isWaitingForResponse = s.isWaitingForResponse ∧
    (handleUploadSettled s o).pendingAsks = s.pendingAsks ∧
    (handleUploadSettled s o).askRequests = s.askRequests ∧
    (handleUploadSettled s o).isChatEnabled = (s.isChatEnabled || decide (o = UploadOutcome.ok)) ∧
    typingCount (handleUploadSettled s o).chatMessages ≤ typingCount s.chatMessages := by
  cases o with
  | ok =>
    have h := setIsChatEnabled_eq { (showToast s (t s.currentLanguage (js "uploadSuccess"))
      (js "success")) with fileInputFile := none } true
    simp only [handleUploadSettled]
    refine ⟨h.2.1, h.2.2.2.1, h.2.2.2.2.1, ?_, ?_⟩
    · rw [h.1]; simp
    · show typingCount (addMessage (clearMessages _) _ Sender.bot).1 ≤ _
      rw [typingCount_addMessage, typingCount_clearMessages]
      exact Nat.zero_le _
  | notOk => exact ⟨rfl, rfl, rfl, by simp [handleUploadSettled, showToast], Nat.le_refl _⟩
  | rejected => exact ⟨rfl, rfl, rfl, by simp [handleUploadSettled, showToast], Nat.le_refl _⟩

theorem chatInvariant_handleUploadSettled (s : AppState) (o : UploadOutcome)
    (hs : ChatInvariant s) : ChatInvariant (handleUploadSettled s o) := by
  have hf := handleUploadSettled_fields s o
  obtain ⟨h1, h2, h3, h4, h5⟩ := hs
  refine ⟨by rw [hf.2.1]; exact h1, by rw [hf.1, hf.2.1]; exact h2,
    by rw [hf.2.1]; exact Nat.le_trans hf.2.2.2.2 h3, ?_, ?_⟩
  · intro h
    rw [hf.2.1] at h
    rw [hf.2.2.2.1, h4 h]; rfl
  · intro h
    rw [hf.2.2.1] at h
    rw [hf.2.2.2.1, h5 h]; rfl

theorem handleFileSelect_fields (s : AppState) (f : File) :
    (handleFileSelect s f).pendingAsks = s.pendingAsks ∧
    (handleFileSelect s f).isWaitingForResponse = s.isWaitingForResponse ∧
    (handleFileSelect s f).chatMessages = s.chatMessages ∧
    (handleFileSelect s f).isChatEnabled = s.isChatEnabled ∧
    (handleFileSelect s f).askRequests = s.askRequests := by
  unfold handleFileSelect
  split <;> exact ⟨rfl, rfl, rfl, rfl, rfl⟩

theorem handleUpload_fields (s : AppState) :
    (handleUpload s).pendingAsks = s.pendingAsks ∧
    (handleUpload s).isWaitingForResponse = s.isWaitingForResponse ∧
    (handleUpload s).chatMessages = s.chatMessages ∧
    (handleUpload s).isChatEnabled = s.isChatEnabled ∧
    (handleUpload s).askRequests = s.askRequests := by
  unfold handleUpload
  split <;> exact ⟨rfl, rfl, rfl, rfl, rfl⟩

theorem setCurrentLanguage_fields (s : AppState) (v : JsString) :
    (setCurrentLanguage s v).pendingAsks = s.pendingAsks ∧
    (setCurrentLanguage s v).isWaitingForResponse = s.isWaitingForResponse ∧
    (setCurrentLanguage s v).chatMessages = s.chatMessages ∧
    (setCurrentLanguage s v).isChatEnabled = s.isChatEnabled ∧
    (setCurrentLanguage s v).askRequests = s.askRequests := by
  unfold setCurrentLanguage
  split <;> exact ⟨rfl, rfl, rfl, rfl, rfl⟩

theorem chatInvariant_step (N : NumberSemantics) (s : AppState) (e : Event)
    (hs : ChatInvariant s) : ChatInvariant (step N s e) := by
  cases e with
  | typeQuestion value => exact chatInvariant_congr s _ hs rfl rfl rfl rfl rfl
  | keypress key =>
    simp only [step]
    split
    · exact chatInvariant_handleSendMessage s hs
    · exact hs
  | clickSend => exact chatInvariant_handleSendMessage s hs
  | fileInputChange file =>
    cases file with
    | none => exact chatInvariant_congr s _ hs rfl rfl rfl rfl rfl
    | some f =>
      have h := handleFileSelect_fields { s with fileInputFile := some f } f
      exact chatInvariant_congr s _ hs h.1 h.2.1 h.2.2.1 h.2.2.2.1 h.2.2.2.2
  | drop file =>
    cases file with
    | none => exact hs
    | some f =>
      have h := handleFileSelect_fields s f
      exact chatInvariant_congr s _ hs h.1 h.2.1 h.2.2.1 h.2.2.2.1 h.2.2.2.2
  | clickUpload =>
    have h := handleUpload_fields s
    exact chatInvariant_congr s _ hs h.1 h.2.1 h.2.2.1 h.2.2.2.1 h.2.2.2.2
  | langSelectChange value =>
    have h := setCurrentLanguage_fields s value
    exact chatInvariant_congr s _ hs h.1 h.2.1 h.2.2.1 h.2.2.2.1 h.2.2.2.2
  | navClick section_ =>
    simp only [step]
    split
    · exact hs
    · exact chatInvariant_congr s _ hs rfl rfl rfl rfl rfl
  | uploadSettled o =>
    simp only [step]
    split
    · exact hs
    · exact chatInvariant_handleUploadSettled s o hs
  | askSettled i ev => exact (chatInvariant_continueAsk N s i ev hs).1

theorem chatInvariant_run (N : NumberSemantics) (s : AppState) (es : List Event)
    (hs : ChatInvariant s) : ChatInvariant (run N s es) := by
  induction es generalizing s with
  | nil => exact hs
  | cons e es ih => exact ih (step N s e) (chatInvariant_step N s e hs)

theorem handleSendMessage_isChatEnabled (s : AppState) :
    (handleSendMessage s).isChatEnabled = s.isChatEnabled := by
  unfold handleSendMessage
  simp only []
  split
  · rfl
  · exact (setIsWaitingForResponse_eq s true).2.1

theorem continueAsk_keeps (N : NumberSemantics) (s : AppState) (i : Nat) (ev : AskSettle) :
    (continueAsk N s i ev).isChatEnabled = s.isChatEnabled ∧
    (continueAsk N s i ev).askRequests = s.askRequests ∧
    (continueAsk N s i ev).pendingUploads = s.pendingUploads := by
  have fin : ∀ s' : AppState, s'.isChatEnabled = s.isChatEnabled →
      s'.askRequests = s.askRequests → s'.pendingUploads = s.pendingUploads →
      (askFinally s' i).isChatEnabled = s.isChatEnabled ∧
      (askFinally s' i).askRequests = s.askRequests ∧
      (askFinally s' i).pendingUploads = s.pendingUploads := by
    intro s' h1 h2 h3
    have hf := askFinally_fields s' i
    exact ⟨hf.2.1.trans h1, hf.2.2.2.1.trans h2, hf.2.2.2.2.2.trans h3⟩
  unfold continueAsk
  split
  · have hc := askCatch_fields s
    exact fin _ hc.2.1 hc.2.2.2.1 hc.2.2.2.2.1
  · have hc := askCatch_fields { s with chatMessages := removeTypingIndicator s.chatMessages }
    simp only []
    split
    · exact fin _ hc.2.1 hc.2.2.2.1 hc.2.2.2.2.1
    · split
      · split
        · exact ⟨rfl, rfl, rfl⟩
        · exact fin _ hc.2.1 hc.2.2.2.1 hc.2.2.2.2.1
      · exact ⟨rfl, rfl, rfl⟩
  · have hc := askCatch_fields s
    exact fin _ hc.2.1 hc.2.2.2.1 hc.2.2.2.2.1
  · have hc := showJsonAnswer_fields N s ‹JsonValue›
    exact fin _ hc.2.1 hc.2.2.2.1 hc.2.2.2.2.1
  · exact ⟨rfl, rfl, rfl⟩
  · exact fin _ rfl rfl rfl
  · exact fin _ rfl rfl rfl
  · exact ⟨rfl, rfl, rfl⟩

theorem step_isChatEnabled (N : NumberSemantics) (s : AppState) (e : Event) :
    (step N s e).isChatEnabled =
      (s.isChatEnabled || (isUploadSuccess e && decide (0 < s.pendingUploads))) := by
  cases e with
  | typeQuestion value => simp [step, isUploadSuccess]
  | keypress key =>
    simp only [step, isUploadSuccess, Bool.false_and, Bool.or_false]
    split
    · exact handleSendMessage_isChatEnabled s
    · rfl
  | clickSend =>
    simp only [step, isUploadSuccess, Bool.false_and, Bool.or_false]
    exact handleSendMessage_isChatEnabled s
  | fileInputChange file =>
    cases file with
    | none => simp [step, isUploadSuccess]
    | some f =>
      simp only [step, isUploadSuccess, Bool.false_and, Bool.or_false]
      exact (handleFileSelect_fields _ f).2.2.2.1
  | drop file =>
    cases file with
    | none => simp [step, isUploadSuccess]
    | some f =>
      simp only [step, isUploadSuccess, Bool.false_and, Bool.or_false]
      exact (handleFileSelect_fields s f).2.2.2.1
  | clickUpload =>
    simp only [step, isUploadSuccess, Bool.false_and, Bool.or_false]
    exact (handleUpload_fields s).2.2.2.1
  | langSelectChange value =>
    simp only [step, isUploadSuccess, Bool.false_and, Bool.or_false]
    exact (setCurrentLanguage_fields s value).2.2.2.1
  | navClick section_ =>
    simp only [step, isUploadSuccess, Bool.false_and, Bool.or_false]
    split <;> rfl
  | uploadSettled o =>
    simp only [step]
    by_cases h0 : s.pendingUploads = 0
    · simp [h0]
    · have hpos : 0 < s.pendingUploads := Nat.pos_of_ne_zero h0
      rw [if_neg h0, (handleUploadSettled_fields s o).2.2.2.1]
      cases o <;> simp [isUploadSuccess, hpos]
  | askSettled i ev =>
    simp only [step, isUploadSuccess, Bool.false_and, Bool.or_false]
    exact (continueAsk_keeps N s i ev).1

theorem step_askRequests_of_disabled (N : NumberSemantics) (s : AppState) (e : Event)
    (h : s.isChatEnabled = false) : (step N s e).askRequests = s.askRequests := by
  have hb : handleSendMessage s = s := handleSendMessage_blocked s (Or.inr (Or.inr h))
  cases e with
  | typeQuestion value => rfl
  | keypress key => simp [step, h]
  | clickSend => simp only [step]; rw [hb]
  | fileInputChange file =>
    cases file with
    | none => rfl
    | some f => exact (handleFileSelect_fields _ f).2.2.2.2
  | drop file =>
    cases file with
    | none => rfl
    | some f => exact (handleFileSelect_fields s f).2.2.2.2
  | clickUpload => exact (handleUpload_fields s).2.2.2.2
  | langSelectChange value => exact (setCurrentLanguage_fields s value).2.2.2.2
  | navClick section_ => simp only [step]; split <;> rfl
  | uploadSettled o =>
    simp only [step]
    split
    · rfl
    · exact (handleUploadSettled_fields s o).2.2.1
  | askSettled i ev => exact (continueAsk_keeps N s i ev).2.1

theorem run_without_upload_success (N : NumberSemantics) (s : AppState) (es : List Event)
    (hc : s.isChatEnabled = false) (hes : ∀ e ∈ es, isUploadSuccess e = false) :
    (run N s es).isChatEnabled = false ∧ (run N s es).askRequests = s.askRequests := by
  induction es generalizing s with
  | nil => exact ⟨hc, rfl⟩
  | cons e es ih =>
    have he : isUploadSuccess e = false := hes e (List.mem_cons_self _ _)
    have hc2 : (step N s e).isChatEnabled = false := by
      rw [step_isChatEnabled, hc, he]; rfl
    have := ih (step N s e) hc2 (fun x hx => hes x (List.mem_cons_of_mem _ hx))
    exact ⟨this.1, this.2.trans (step_askRequests_of_disabled N s e hc)⟩

/-! ## The chat handler of the vanilla front-end: claims C4, C5 and C7 -/

/-- C4: in every reachable state at most one `/ask` request is in flight (at
most one call of `handleSendMessage` has not returned), and the flag
`isWaitingForResponse` is set exactly then; in any state where the flag is set
`handleSendMessage` and the Enter-key handler leave the whole state unchanged
(no request, no message); and whenever `handleSendMessage` issues a request the
flag was clear before and is set in the state it suspends in. -/
theorem at_most_one_ask_in_flight (N : NumberSemantics) (page : Page)
    (stored : Option JsString) (es : List Event) :
    (run N (AppState.init page stored) es).pendingAsks.length ≤ 1 ∧
    ((run N (AppState.init page stored) es).isWaitingForResponse = true ↔
      (run N (AppState.init page stored) es).pendingAsks.length = 1) ∧
    (∀ s : AppState, s.isWaitingForResponse = true →
      handleSendMessage s = s ∧ ∀ key, step N s (Event.keypress key) = s) ∧
    (∀ s : AppState, (handleSendMessage s).askRequests ≠ s.askRequests →
      s.isWaitingForResponse = false ∧ (handleSendMessage s).isWaitingForResponse = true ∧
      (handleSendMessage s).askRequests =
        s.askRequests ++ [{ question := trim s.questionInputValue, lang := s.currentLanguage }] ∧
      (handleSendMessage s).pendingAsks = s.pendingAsks ++ [AskPhase.fetching]) := by
  obtain ⟨h1, h2, _, _, _⟩ := chatInvariant_run N _ es (chatInvariant_init page stored)
  refine ⟨h1, ?_, ?_, ?_⟩
  · rw [h2]
    rcases pendingAsks_cases _ h1 with hp | ⟨p, hp⟩ <;> simp [hp]
  · intro s hw
    refine ⟨handleSendMessage_blocked s (Or.inr (Or.inl hw)), fun key => ?_⟩
    simp [step, hw]
  · intro s hne
    by_cases hg : (trim s.questionInputValue).isEmpty = true ∨ s.isWaitingForResponse = true ∨
        s.isChatEnabled = false
    · rw [handleSendMessage_blocked s hg] at hne
      exact absurd rfl hne
    · have hq : (trim s.questionInputValue).isEmpty = false := by
        cases h : (trim s.questionInputValue).isEmpty with
        | false => rfl
        | true => exact absurd (Or.inl h) hg
      have hw : s.isWaitingForResponse = false := by
        cases h : s.isWaitingForResponse with
        | false => rfl
        | true => exact absurd (Or.inr (Or.inl h)) hg
      have hc : s.isChatEnabled = true := by
        cases h : s.isChatEnabled with
        | true => rfl
        | false => exact absurd (Or.inr (Or.inr h)) hg
      have hf := handleSendMessage_sends s hq hw hc
      exact ⟨hw, hf.1, hf.2.2.2.1, hf.2.2.1⟩

/-- Witness of C4: after the sample session one request is in flight, and a
second click on the send button changes nothing. -/
theorem at_most_one_ask_in_flight_witness :
    (run plainNumbers (AppState.init samplePage none) sampleSession).isWaitingForResponse = true ∧
    (run plainNumbers (AppState.init samplePage none) sampleSession).pendingAsks.length = 1 ∧
    handleSendMessage (run plainNumbers (AppState.init samplePage none) sampleSession) =
      run plainNumbers (AppState.init samplePage none) sampleSession :=
  ⟨by decide, by decide,
    ((at_most_one_ask_in_flight plainNumbers samplePage none sampleSession).2.2.1
      (run plainNumbers (AppState.init samplePage none) sampleSession) (by decide)).1⟩

/-- C5: in every reachable state, whichever way the request of a suspended
`handleSendMessage` ends (`fetch` rejects, non-OK status, the JSON body is read
or fails to be read, the event stream ends, reading the stream fails, the
stream has no body), once the call returns `isWaitingForResponse` is false, no
typing indicator remains and no call is pending, so that the next non-blank
question is sent. -/
theorem handleSendMessage_always_resets (N : NumberSemantics) (page : Page)
    (stored : Option JsString) (es : List Event) (i : Nat) (p : AskPhase) (ev : AskSettle)
    (hp : (run N (AppState.init page stored) es).pendingAsks.get? i = some p)
    (hf : finishes p ev = true) :
    (step N (run N (AppState.init page stored) es)
      (Event.askSettled i ev)).isWaitingForResponse = false ∧
    typingCount (step N (run N (AppState.init page stored) es)
      (Event.askSettled i ev)).chatMessages = 0 ∧
    (step N (run N (AppState.init page stored) es) (Event.askSettled i ev)).pendingAsks = [] ∧
    (∀ q, (trim q).isEmpty = false →
      (handleSendMessage { step N (run N (AppState.init page stored) es)
          (Event.askSettled i ev) with questionInputValue := q }).askRequests =
        (step N (run N (AppState.init page stored) es) (Event.askSettled i ev)).askRequests ++
          [{ question := trim q,
             lang := (step N (run N (AppState.init page stored) es)
              (Event.askSettled i ev)).currentLanguage }]) := by
  have hinv := chatInvariant_run N _ es (chatInvariant_init page stored)
  have h := (chatInvariant_continueAsk N _ i ev hinv).2 p hp hf
  refine ⟨h.1, h.2.2.1, h.2.1, fun q hq => ?_⟩
  exact (handleSendMessage_sends
    { step N (run N (AppState.init page stored) es) (Event.askSettled i ev) with
      questionInputValue := q } hq h.1 h.2.2.2).2.2.2.1

/-- Witness of C5: in the sample session the request is rejected; the flag is
cleared and the typing indicator is gone. -/
theorem handleSendMessage_always_resets_witness :
    (run plainNumbers (AppState.init samplePage none) sampleSession).pendingAsks.get? 0 =
      some AskPhase.fetching ∧
    typingCount (run plainNumbers (AppState.init samplePage none) sampleSession).chatMessages = 1 ∧
    (step plainNumbers (run plainNumbers (AppState.init samplePage none) sampleSession)
      (Event.askSettled 0 AskSettle.fetchRejected)).isWaitingForResponse = false ∧
    typingCount (step plainNumbers (run plainNumbers (AppState.init samplePage none) sampleSession)
      (Event.askSettled 0 AskSettle.fetchRejected)).chatMessages = 0 :=
  ⟨by decide, by decide,
    (handleSendMessage_always_resets plainNumbers samplePage none sampleSession 0
      AskPhase.fetching AskSettle.fetchRejected (by decide) (by decide)).1,
    (handleSendMessage_always_resets plainNumbers samplePage none sampleSession 0
      AskPhase.fetching AskSettle.fetchRejected (by decide) (by decide)).2.1⟩

/-- C7: `isChatEnabled` starts false; an event turns it from false to true only
if it is the successful settlement of a pending `handleUpload`; while it is
false `handleSendMessage` and the Enter-key handler leave the state unchanged,
and no event adds a request; so along every sequence of events no `/ask`
request is sent while `isChatEnabled` is false, in particular none when no
upload has succeeded. -/
theorem no_ask_before_upload_success (N : NumberSemantics) (page : Page)
    (stored : Option JsString) :
    (AppState.init page stored).isChatEnabled = false ∧
    (AppState.init page stored).askRequests = [] ∧
    (∀ (s : AppState) (e : Event), s.isChatEnabled = false →
      (step N s e).isChatEnabled = true → isUploadSuccess e = true ∧ 0 < s.pendingUploads) ∧
    (∀ s : AppState, s.isChatEnabled = false →
      handleSendMessage s = s ∧ (∀ key, step N s (Event.keypress key) = s) ∧
      ∀ e, (step N s e).askRequests = s.askRequests) ∧
    (∀ es : List Event, (run N (AppState.init page stored) es).isChatEnabled = false →
      (run N (AppState.init page stored) es).askRequests = []) ∧
    (∀ es : List Event, (∀ e ∈ es, isUploadSuccess e = false) →
      (run N (AppState.init page stored) es).isChatEnabled = false ∧
      (run N (AppState.init page stored) es).askRequests = []) := by
  refine ⟨rfl, rfl, ?_, ?_, ?_, ?_⟩
  · intro s e hs he
    rw [step_isChatEnabled, hs] at he
    simpa using he
  · intro s hs
    refine ⟨handleSendMessage_blocked s (Or.inr (Or.inr hs)), fun key => ?_,
      fun e => step_askRequests_of_disabled N s e hs⟩
    simp [step, hs]
  · intro es hes
    have h5 := (chatInvariant_run N _ es (chatInvariant_init page stored)).2.2.2.2
    by_contra hne
    rw [h5 hne] at hes
    cases hes
  · intro es hes
    exact run_without_upload_success N _ es rfl hes

/-- Witness of C7: typing a question and trying to send it twice before any
upload sends nothing. -/
theorem no_ask_before_upload_success_witness :
    (run plainNumbers (AppState.init samplePage none)
      [Event.typeQuestion (js "hi"), Event.clickSend, Event.keypress (js "Enter")]).askRequests
      = [] :=
  ((no_ask_before_upload_success plainNumbers samplePage none).2.2.2.2.2
    [Event.typeQuestion (js "hi"), Event.clickSend, Event.keypress (js "Enter")]
    (by decide)).2

/-! ## Lemmas on the React chat page -/

theorem lookup_setItem (storage : Storage) (key value : JsString) :
    getItem (setItem storage key value) key = some value := by
  simp [getItem, setItem, lookup]

theorem mem_validLanguages_ne_nil (l : JsString) (hl : l ∈ validLanguages) :
    ∃ c cs, l = c :: cs := by
  simp only [validLanguages, List.mem_cons, List.mem_singleton, List.not_mem_nil, or_false] at hl
  rcases hl with rfl | rfl | rfl
  · exact ⟨_, _, rfl⟩
  · exact ⟨_, _, rfl⟩
  · exact ⟨_, _, rfl⟩

theorem initialLanguage_of_stored (storage : Storage) (l : JsString) (hl : l ∈ validLanguages)
    (hs : getItem storage (js "selectedLanguage") = some l) :
    initialLanguage (some storage) = l ∧ (mountLanguageProvider (some storage)).language = l := by
  obtain ⟨c, cs, rfl⟩ := mem_validLanguages_ne_nil l hl
  have hc : validLanguages.contains (c :: cs) = true := by
    simpa using hl
  have hi : initialLanguage (some storage) = c :: cs := by
    simp only [initialLanguage, hs]
  refine ⟨hi, ?_⟩
  simp only [mountLanguageProvider, restoreLanguage, hs, hc, if_true]

theorem chatHandleSendMessage_request (props : ChatProps) (st : ChatState) (now : Nat) :
    (Chat.handleSendMessage props st now).2 = none ∨
    (Chat.handleSendMessage props st now).2 =
      some (askQuestionBody props.sessionId st.inputValue (some props.currentLanguage)) := by
  unfold Chat.handleSendMessage
  split
  · exact Or.inl rfl
  · exact Or.inr rfl

theorem pageSend_requests (s : ChatPageState) (now : Nat) :
    (pageSend s now).requests = s.requests ∨
    ∃ st, s.chat = some st ∧
      (pageSend s now).requests =
        s.requests ++ [askQuestionBody s.sessionId st.inputValue (some s.lang.language)] := by
  unfold pageSend
  cases hc : s.chat with
  | none => exact Or.inl rfl
  | some st =>
    simp only []
    rcases chatHandleSendMessage_request (chatProps s) st now with h | h
    · left
      cases hr : Chat.handleSendMessage (chatProps s) st now with
      | mk st1 r =>
        rw [hr] at h
        cases h
        rfl
    · right
      refine ⟨st, rfl, ?_⟩
      cases hr : Chat.handleSendMessage (chatProps s) st now with
      | mk st1 r =>
        rw [hr] at h
        cases h
        rfl

theorem pageSettle_requests (s : ChatPageState) (i : Nat) (finish : ChatState → ChatState) :
    (pageSettle s i finish).requests = s.requests := by
  unfold pageSettle
  split <;> rfl

theorem renderChatPage_requests (N : NumberSemantics) (s : ChatPageState) (now : Nat) :
    (renderChatPage N s now).requests = s.requests := by
  unfold renderChatPage
  split
  · split <;> rfl
  · rfl

theorem handleUploadSuccess_requests (s : ChatPageState) (response : JsonValue) :
    (handleUploadSuccess s response).requests = s.requests := by
  unfold handleUploadSuccess
  split <;> rfl

theorem pageStep_requests (N : NumberSemantics) (s : ChatPageState) (e : PageEvent) :
    (pageStep N s e).requests = s.requests ∨
    ∃ st, s.chat = some st ∧
      (pageStep N s e).requests =
        s.requests ++ [askQuestionBody s.sessionId st.inputValue (some s.lang.language)] := by
  cases e with
  | setLanguage l => exact Or.inl rfl
  | uploadSuccess response now =>
    left
    simp only [pageStep]
    rw [renderChatPage_requests, handleUploadSuccess_requests]
  | uploadNewDocument =>
    left
    simp only [pageStep]
    rw [renderChatPage_requests]
  | changeInput value =>
    left
    simp only [pageStep]
    split <;> rfl
  | clickSend now => exact pageSend_requests s now
  | keyPress key shiftKey now =>
    simp only [pageStep]
    split
    · exact pageSend_requests s now
    · exact Or.inl rfl
  | askResolved i now data typeError => exact Or.inl (pageSettle_requests s i _)
  | askRejected i err => exact Or.inl (pageSettle_requests s i _)

theorem pageStep_sent (N : NumberSemantics) (s : ChatPageState) (e : PageEvent)
    (r : AskQuestionRequest) (h : (pageStep N s e).requests = s.requests ++ [r]) :
    ∃ st, s.chat = some st ∧
      r = askQuestionBody s.sessionId st.inputValue (some s.lang.language) := by
  rcases pageStep_requests N s e with h1 | ⟨st, hst, h1⟩
  · rw [h1] at h
    have := congrArg List.length h
    simp at this
  · rw [h1] at h
    have h2 := List.append_cancel_left h
    simp only [List.cons.injEq, and_true] at h2
    exact ⟨st, hst, h2.symm⟩

theorem lastUploadedSessionId_cons (e : PageEvent) (es : List PageEvent) :
    lastUploadedSessionId (e :: es) =
      match lastUploadedSessionId es with
      | some v => some v
      | none => uploadedSessionId e := rfl

theorem lastUploadedSessionId_snoc (es : List PageEvent) (e : PageEvent) :
    lastUploadedSessionId (es ++ [e]) =
      match uploadedSessionId e with
      | some v => some v
      | none => lastUploadedSessionId es := by
  induction es with
  | nil =>
    rw [List.nil_append, lastUploadedSessionId_cons]
    cases uploadedSessionId e <;> rfl
  | cons x xs ih =>
    rw [List.cons_append, lastUploadedSessionId_cons, ih, lastUploadedSessionId_cons]
    cases uploadedSessionId e with
    | none => rfl
    | some v => rfl

theorem pageRun_snoc (N : NumberSemantics) (s : ChatPageState) (es : List PageEvent)
    (e : PageEvent) : pageRun N s (es ++ [e]) = pageStep N (pageRun N s es) e := by
  simp [pageRun, List.foldl_append]

theorem renderChatPage_fields (N : NumberSemantics) (s : ChatPageState) (now : Nat) :
    (renderChatPage N s now).sessionId = s.sessionId ∧
    (renderChatPage N s now).lang = s.lang ∧
    (renderChatPage N s now).chat.isSome = truthyOpt N s.sessionId := by
  unfold renderChatPage
  by_cases h : truthyOpt N s.sessionId = true
  · rw [if_pos h]
    cases hc : s.chat with
    | none => exact ⟨rfl, rfl, h.symm⟩
    | some st => exact ⟨rfl, rfl, by rw [hc, h]; rfl⟩
  · rw [if_neg h]
    refine ⟨rfl, rfl, ?_⟩
    cases hv : truthyOpt N s.sessionId with
    | false => rfl
    | true => exact absurd hv h

theorem pageSend_fields (s : ChatPageState) (now : Nat) :
    (pageSend s now).sessionId = s.sessionId ∧ (pageSend s now).lang = s.lang ∧
    (pageSend s now).chat.isSome = s.chat.isSome := by
  unfold pageSend
  cases hc : s.chat with
  | none => exact ⟨rfl, rfl, by rw [hc]⟩
  | some st =>
    simp only []
    cases hr : Chat.handleSendMessage (chatProps s) st now with
    | mk st1 r =>
      cases r with
      | none => exact ⟨rfl, rfl, rfl⟩
      | some q => exact ⟨rfl, rfl, rfl⟩

theorem pageSettle_fields (s : ChatPageState) (i : Nat) (finish : ChatState → ChatState) :
    (pageSettle s i finish).sessionId = s.sessionId ∧ (pageSettle s i finish).lang = s.lang ∧
    (pageSettle s i finish).chat.isSome = s.chat.isSome := by
  unfold pageSettle
  cases s.pendingAsks.get? i with
  | none => exact ⟨rfl, rfl, rfl⟩
  | some mount =>
    refine ⟨rfl, rfl, ?_⟩
    cases s.chat with
    | none => rfl
    | some st =>
      simp only []
      split <;> rfl

theorem truthyOpt_null (N : NumberSemantics) : truthyOpt N (some JsonValue.null) = false := rfl

theorem page_invariant (N : NumberSemantics) (window : Option Storage) (es : List PageEvent) :
    (pageRun N (ChatPageState.init window) es).chat.isSome =
      truthyOpt N (pageRun N (ChatPageState.init window) es).sessionId ∧
    (truthyOpt N (pageRun N (ChatPageState.init window) es).sessionId = true →
      lastUploadedSessionId es = some (pageRun N (ChatPageState.init window) es).sessionId) := by
  induction es using List.reverseRecOn with
  | nil => exact ⟨rfl, fun h => by cases h⟩
  | append_singleton es e ih =>
    rw [pageRun_snoc, lastUploadedSessionId_snoc]
    generalize pageRun N (ChatPageState.init window) es = s at ih ⊢
    obtain ⟨iha, ihb⟩ := ih
    cases e with
    | setLanguage l => exact ⟨iha, ihb⟩
    | uploadSuccess response now =>
      have hr := renderChatPage_fields N (handleUploadSuccess s response) now
      simp only [pageStep]
      rw [hr.1]
      refine ⟨hr.2.2, ?_⟩
      simp only [uploadedSessionId, handleUploadSuccess]
      cases hg : getProp (js "session_id") response with
      | threw => exact ihb
      | undefined => intro _; rfl
      | value v => intro _; rfl
    | uploadNewDocument =>
      have hr := renderChatPage_fields N
        { s with sessionId := some JsonValue.null, documentName := some (JsonValue.str []) } 0
      simp only [pageStep]
      rw [hr.1]
      exact ⟨hr.2.2, fun h => by cases h⟩
    | changeInput value =>
      simp only [pageStep]
      cases hc : s.chat with
      | none => simp only [hc] at iha ⊢; exact ⟨iha, ihb⟩
      | some st => rw [hc] at iha; exact ⟨iha, ihb⟩
    | clickSend now =>
      have hf := pageSend_fields s now
      simp only [pageStep]
      rw [hf.1, hf.2.2]
      exact ⟨iha, ihb⟩
    | keyPress key shiftKey now =>
      have hf := pageSend_fields s now
      simp only [pageStep]
      split
      · rw [hf.1, hf.2.2]
        exact ⟨iha, ihb⟩
      · exact ⟨iha, ihb⟩
    | askResolved i now data typeError =>
      have hf := pageSettle_fields s i (fun st => chatAskResolved N st now data typeError)
      simp only [pageStep]
      rw [hf.1, hf.2.2]
      exact ⟨iha, ihb⟩
    | askRejected i err =>
      have hf := pageSettle_fields s i (fun st => chatAskRejected N st err)
      simp only [pageStep]
      rw [hf.1, hf.2.2]
      exact ⟨iha, ihb⟩

/-! ## The React chat page and language context: claims C6, C8, C9 and C10 -/

/-- C6: when the input is empty after trimming, or `isLoading` is true,
`Chat.handleSendMessage` is a no-op: `askQuestion` is not called and the state
of `Chat` (`messages`, `inputValue`, `isLoading`, `error`) is unchanged; on the
page a click on the send button then changes nothing at all. -/
theorem chatHandleSendMessage_noop (N : NumberSemantics) (props : ChatProps) (st : ChatState)
    (now : Nat) (h : (trim st.inputValue).isEmpty = true ∨ st.isLoading = true) :
    Chat.handleSendMessage props st now = (st, none) ∧
    (∀ s : ChatPageState, s.chat = some st → pageStep N s (PageEvent.clickSend now) = s) := by
  have h1 : ∀ p : ChatProps, Chat.handleSendMessage p st now = (st, none) := by
    intro p
    unfold Chat.handleSendMessage
    rcases h with h | h <;> simp [h]
  refine ⟨h1 props, fun s hs => ?_⟩
  simp only [pageStep, pageSend, hs, h1 (chatProps s)]
  cases s
  simp_all

/-- Witness of C6: with only blanks typed, sending does nothing. -/
theorem chatHandleSendMessage_noop_witness :
    (trim (js "  \n ")).isEmpty = true ∧
    (Chat.handleSendMessage (chatProps (ChatPageState.init none))
      { ChatState.init (chatProps (ChatPageState.init none)) 0 with inputValue := js "  \n " }
      5).2.isNone = true :=
  ⟨by decide, by
    rw [(chatHandleSendMessage_noop plainNumbers (chatProps (ChatPageState.init none))
      { ChatState.init (chatProps (ChatPageState.init none)) 0 with inputValue := js "  \n " }
      5 (Or.inl (by decide))).1]
    rfl⟩

/-- C8: whenever an event on the chat page sends an ask-question request, in
any state reached from a fresh page, the `session_id` of the request body is
the `sessionId` held by the page, which is exactly the `session_id` returned by
the most recent successful upload. -/
theorem ask_request_carries_uploaded_session_id (N : NumberSemantics) (window : Option Storage)
    (es : List PageEvent) (e : PageEvent) (r : AskQuestionRequest)
    (h : (pageStep N (pageRun N (ChatPageState.init window) es) e).requests =
      (pageRun N (ChatPageState.init window) es).requests ++ [r]) :
    r.session_id = (pageRun N (ChatPageState.init window) es).sessionId ∧
    lastUploadedSessionId es = some r.session_id := by
  obtain ⟨st, hst, hr⟩ := pageStep_sent N _ e r h
  obtain ⟨ha, hb⟩ := page_invariant N window es
  have hid : r.session_id = (pageRun N (ChatPageState.init window) es).sessionId := by
    rw [hr]; rfl
  refine ⟨hid, ?_⟩
  rw [hid]
  apply hb
  rw [← ha, hst]
  rfl

/-- Witness of C8: after the sample visit a click on send posts the session id
`abc` of the upload. -/
theorem ask_request_carries_uploaded_session_id_witness :
    (pageStep plainNumbers (pageRun plainNumbers (ChatPageState.init none) samplePageSession)
      (PageEvent.clickSend 20)).requests =
      (pageRun plainNumbers (ChatPageState.init none) samplePageSession).requests ++
        [askQuestionBody (some (JsonValue.str (js "abc"))) (js "What is this?")
          (some (js "hi"))] ∧
    lastUploadedSessionId samplePageSession = some (some (JsonValue.str (js "abc"))) :=
  ⟨rfl, (ask_request_carries_uploaded_session_id plainNumbers none samplePageSession
    (PageEvent.clickSend 20)
    (askQuestionBody (some (JsonValue.str (js "abc"))) (js "What is this?") (some (js "hi")))
    rfl).2⟩

/-- C9: whenever an event on the chat page sends an ask-question request, the
`language` of the request body is the language held by the language context at
that moment. -/
theorem ask_request_carries_context_language (N : NumberSemantics) (window : Option Storage)
    (es : List PageEvent) (e : PageEvent) (r : AskQuestionRequest)
    (h : (pageStep N (pageRun N (ChatPageState.init window) es) e).requests =
      (pageRun N (ChatPageState.init window) es).requests ++ [r]) :
    r.language = (pageRun N (ChatPageState.init window) es).lang.language := by
  obtain ⟨st, _, hr⟩ := pageStep_sent N _ e r h
  rw [hr]
  rfl

/-- Witness of C9: after the sample visit, in which Hindi was chosen, a click on
send posts the language `hi`. -/
theorem ask_request_carries_context_language_witness :
    (pageRun plainNumbers (ChatPageState.init none) samplePageSession).lang.language = js "hi" ∧
    (askQuestionBody (some (JsonValue.str (js "abc"))) (js "What is this?")
      (some (js "hi"))).language =
      (pageRun plainNumbers (ChatPageState.init none) samplePageSession).lang.language :=
  ⟨by decide,
    ask_request_carries_context_language plainNumbers none samplePageSession
      (PageEvent.clickSend 20)
      (askQuestionBody (some (JsonValue.str (js "abc"))) (js "What is this?") (some (js "hi")))
      rfl⟩

/-- C10: for every `l` among `en`, `hi`, `mr`, in a browser, after
`setLanguage(l)` the `localStorage` key `selectedLanguage` holds `l` and the
context language is `l`; a provider initialised from that storage, or from any
storage whose key holds `l`, starts with language `l` and keeps it after its
mount effect; with nothing stored, or without a window, the initial language
is `en`. -/
theorem language_persistence_round_trip (s : LanguageState) (storage : Storage) (l : JsString)
    (hw : s.window = some storage) (hl : l ∈ validLanguages) :
    (setLanguage s l).language = l ∧
    (setLanguage s l).window = some (setItem storage (js "selectedLanguage") l) ∧
    getItem (setItem storage (js "selectedLanguage") l) (js "selectedLanguage") = some l ∧
    initialLanguage (setLanguage s l).window = l ∧
    (mountLanguageProvider (setLanguage s l).window).language = l ∧
    (∀ later : Storage, getItem later (js "selectedLanguage") = some l →
      initialLanguage (some later) = l ∧ (mountLanguageProvider (some later)).language = l) ∧
    (∀ empty : Storage, getItem empty (js "selectedLanguage") = none →
      initialLanguage (some empty) = js "en" ∧
      (mountLanguageProvider (some empty)).language = js "en") ∧
    initialLanguage none = js "en" := by
  have hc : validLanguages.contains l = true := by simpa using hl
  have hset : setLanguage s l =
      { language := l, window := some (setItem storage (js "selectedLanguage") l) } := by
    simp only [setLanguage, hc, Bool.not_true, Bool.false_eq_true, if_false, hw]
  have hget := lookup_setItem storage (js "selectedLanguage") l
  have hround := initialLanguage_of_stored _ l hl hget
  rw [hset]
  refine ⟨rfl, rfl, hget, hround.1, hround.2, ?_, ?_, rfl⟩
  · intro later hlater
    exact initialLanguage_of_stored later l hl hlater
  · intro empty hempty
    constructor
    · simp only [initialLanguage, hempty]
    · simp only [mountLanguageProvider, restoreLanguage, initialLanguage, hempty]

/-- Witness of C10: Marathi chosen in a browser whose storage holds an
unrelated entry is what a refreshed page starts with. -/
theorem language_persistence_round_trip_witness :
    (mountLanguageProvider
      (setLanguage { language := js "en", window := some [(js "theme", js "dark")] }
        (js "mr")).window).language = js "mr" :=
  (language_persistence_round_trip
    { language := js "en", window := some [(js "theme", js "dark")] }
    [(js "theme", js "dark")] (js "mr") rfl (by decide)).2.2.2.2.1

/-! ## Language context, string table and routing: claims C11, C12, C17 and C18 -/

/-- C11: for every string that is not one of `en`, `hi`, `mr`, and for every
value that is not a string, `setLanguage` returns the state it was given: the
language and the content of `localStorage` are unchanged. -/
theorem setLanguage_rejects_invalid (s : LanguageState) (l : JsString)
    (h : l ∉ validLanguages) :
    setLanguage s l = s ∧
    setLanguageValue s (some (JsonValue.str l)) = s ∧
    (∀ v : Option JsonValue, (∀ x, v ≠ some (JsonValue.str x)) → setLanguageValue s v = s) := by
  have hc : validLanguages.contains l = false := by
    cases hv : validLanguages.contains l with
    | false => rfl
    | true => exact absurd (by simpa using hv) h
  refine ⟨?_, ?_, ?_⟩
  · unfold setLanguage
    rw [hc]
    rfl
  · unfold setLanguageValue includesValue
    simp only [hc]
    rfl
  · intro v hv
    unfold setLanguageValue
    cases v with
    | none => rfl
    | some w =>
      cases w with
      | str x => exact absurd rfl (hv x)
      | _ => rfl

/-- Witness of C11: `fr` is refused, in a browser that has stored `hi`. -/
theorem setLanguage_rejects_invalid_witness :
    setLanguage { language := js "hi", window := some [(js "selectedLanguage", js "hi")] }
      (js "fr") =
      { language := js "hi", window := some [(js "selectedLanguage", js "hi")] } :=
  (setLanguage_rejects_invalid
    { language := js "hi", window := some [(js "selectedLanguage", js "hi")] } (js "fr")
    (by decide)).1

/-- C12 fails on the code: with `fr` stored under `selectedLanguage`, the
initialiser of `useState` returns `fr` unchecked, the mount effect (which does
check) leaves it, and after no call, or after any refused call, the context
exposes `fr`, which is not one of `en`, `hi`, `mr`. -/
theorem language_context_exposes_stored_invalid :
    (languageAfter (some [(js "selectedLanguage", js "fr")]) []).language = js "fr" ∧
    (languageAfter (some [(js "selectedLanguage", js "fr")])
      [some (JsonValue.str (js "de")), none]).language = js "fr" ∧
    validLanguages.contains (js "fr") = false := by
  decide

/-- C18: `currentPage` starts as `home`; `onStartChat` sets it to `chat` and
`goHome` to `home`, whatever it was, and nothing else sets it; so after any
sequence of callbacks it is `home` or `chat`; `Home` is rendered exactly when
it is `home`, and `ChatPage` otherwise. -/
theorem app_routing (es : List AppEvent) (page : JsString) (e : AppEvent) :
    appRun [] = js "home" ∧
    (appRun es = js "home" ∨ appRun es = js "chat") ∧
    (appStep page e = js "chat" ↔ e = AppEvent.onStartChat) ∧
    (appStep page e = js "home" ↔ e = AppEvent.goHome) ∧
    appRun (es ++ [e]) = appStep (appRun es) e ∧
    (renderMain page = View.home ↔ page = js "home") ∧
    (renderMain page = View.chatPage ↔ page ≠ js "home") ∧
    (renderMain (appRun es) = View.chatPage ↔ appRun es = js "chat") := by
  have hrun : appRun es = js "home" ∨ appRun es = js "chat" := by
    induction es using List.reverseRecOn with
    | nil => exact Or.inl rfl
    | append_singleton xs x _ =>
      have hx : appRun (xs ++ [x]) = appStep (appRun xs) x := by
        simp [appRun, List.foldl_append]
      rw [hx]
      cases x with
      | onStartChat => exact Or.inr rfl
      | goHome => exact Or.inl rfl
  have hrender : ∀ p : JsString, renderMain p = View.home ↔ p = js "home" := by
    intro p
    unfold renderMain
    by_cases hp : p = js "home"
    · simp [hp]
    · simp [hp]
  have hrender2 : ∀ p : JsString, renderMain p = View.chatPage ↔ p ≠ js "home" := by
    intro p
    unfold renderMain
    by_cases hp : p = js "home"
    · simp [hp]
    · simp [hp]
  refine ⟨rfl, hrun, ?_, ?_, ?_, hrender page, hrender2 page, ?_⟩
  · cases e with
    | onStartChat => exact ⟨fun _ => rfl, fun _ => rfl⟩
    | goHome =>
      have hne : js "home" ≠ js "chat" := by decide
      exact ⟨fun h => absurd h hne, fun h => by cases h⟩
  · cases e with
    | onStartChat =>
      have hne : js "chat" ≠ js "home" := by decide
      exact ⟨fun h => absurd h hne, fun h => by cases h⟩
    | goHome => exact ⟨fun _ => rfl, fun _ => rfl⟩
  · simp [appRun, List.foldl_append]
  · rw [hrender2]
    rcases hrun with h | h
    · rw [h]
      exact ⟨fun hne => absurd rfl hne, fun hc => absurd hc (by decide)⟩
    · rw [h]
      exact ⟨fun _ => rfl, fun _ => by decide⟩

/-- C17: for every language among `en`, `hi`, `mr` and every key of the English
table, `translations[language][key]` exists and is a non-empty string, and
`t(key)` with that current language returns it: neither the English fallback
nor the raw key is used. -/
theorem translations_complete (language key : JsString) (hl : language ∈ validLanguages)
    (hk : key ∈ englishKeys) :
    (ownString language key).isSome = true ∧
    ownString language key ≠ some [] ∧
    some (t language key) = ownString language key := by
  have h : ∀ l ∈ validLanguages, ∀ k ∈ englishKeys,
      (ownString l k).isSome = true ∧ ownString l k ≠ some [] ∧
      some (t l k) = ownString l k := by
    decide
  exact h language hl key hk

/-- Witness of C17: the Marathi label of the send button. -/
theorem translations_complete_witness :
    some (t (js "mr") (js "sendBtn")) = ownString (js "mr") (js "sendBtn") ∧
    t (js "mr") (js "sendBtn") = js "पाठवा" :=
  ⟨(translations_complete (js "mr") (js "sendBtn") (by decide) (by decide)).2.2, by decide⟩

/-! ## Lemmas on `Upload` -/

theorem handleUpload_cases (toLowerCase : JsString → JsString) (st : UploadState) :
    (st.inputFile = none ∧
      Upload.handleUpload toLowerCase st =
        ({ st with error := JsonValue.str (js "Please select a PDF file") }, none)) ∨
    (∃ file, st.inputFile = some file ∧ failsTypeCheck toLowerCase file = true ∧
      Upload.handleUpload toLowerCase st =
        ({ st with error := JsonValue.str (js "Please upload a valid PDF file") }, none)) ∨
    (∃ file, st.inputFile = some file ∧ failsTypeCheck toLowerCase file = false ∧
      maxFileSize < file.size ∧
      Upload.handleUpload toLowerCase st =
        ({ st with error := JsonValue.str (js "File size must be less than 50MB") }, none)) ∨
    (∃ file, st.inputFile = some file ∧ failsTypeCheck toLowerCase file = false ∧
      file.size ≤ maxFileSize ∧
      Upload.handleUpload toLowerCase st =
        ({ st with uploading := true, error := JsonValue.str [] }, some file)) := by
  unfold Upload.handleUpload
  cases hf : st.inputFile with
  | none => exact Or.inl ⟨rfl, rfl⟩
  | some file =>
    right
    by_cases ht : failsTypeCheck toLowerCase file = true
    · exact Or.inl ⟨file, rfl, ht, by simp [ht]⟩
    · have ht2 : failsTypeCheck toLowerCase file = false := by
        cases h : failsTypeCheck toLowerCase file with
        | false => rfl
        | true => exact absurd h ht
      right
      by_cases hs : file.size > maxFileSize
      · exact Or.inl ⟨file, rfl, ht2, hs, by simp [ht2, hs]⟩
      · exact Or.inr ⟨file, rfl, ht2, Nat.le_of_not_gt hs, by simp [ht2, hs]⟩

theorem uploadErrorMessage_truthy (N : NumberSemantics) (error : AskError) :
    jsTruthy N (uploadErrorMessage N error) = true := by
  unfold uploadErrorMessage
  simp only []
  split
  · next h =>
    split
    · next d hd => rw [hd] at h; exact h
    · rfl
  · split
    · rfl
    · rfl

theorem uploadStep_uploaded (N : NumberSemantics) (toLowerCase : JsString → JsString)
    (isLoading : Bool) (r : UploadRun) (e : UploadEvent) :
    (uploadStep N toLowerCase isLoading r e).uploaded = r.uploaded ∨
    ∃ file, (Upload.handleUpload toLowerCase r.state).2 = some file ∧
      (uploadStep N toLowerCase isLoading r e).uploaded = r.uploaded ++ [file] := by
  cases e with
  | selectFile file =>
    left
    simp only [uploadStep]
    split <;> rfl
  | clickUpload =>
    simp only [uploadStep]
    split
    · exact Or.inl rfl
    · cases hr : Upload.handleUpload toLowerCase r.state with
      | mk st call =>
        cases call with
        | none => exact Or.inl rfl
        | some file => exact Or.inr ⟨file, rfl, rfl⟩
  | settled o =>
    left
    simp only [uploadStep]
    split
    · rfl
    · cases hr : Upload.settled N r.state o with
      | mk st call =>
        cases call <;> rfl

theorem uploadRun_snoc (N : NumberSemantics) (toLowerCase : JsString → JsString)
    (isLoading : Bool) (es : List UploadEvent) (e : UploadEvent) :
    uploadRun N toLowerCase isLoading (es ++ [e]) =
      uploadStep N toLowerCase isLoading (uploadRun N toLowerCase isLoading es) e := by
  simp [uploadRun, List.foldl_append]

theorem uploadRun_invariant (N : NumberSemantics) (toLowerCase : JsString → JsString)
    (isLoading : Bool) (es : List UploadEvent) :
    (uploadRun N toLowerCase isLoading es).pending ≤ 1 ∧
    (uploadRun N toLowerCase isLoading es).state.uploading =
      decide (0 < (uploadRun N toLowerCase isLoading es).pending) := by
  induction es using List.reverseRecOn with
  | nil => exact ⟨Nat.zero_le _, rfl⟩
  | append_singleton es e ih =>
    rw [uploadRun_snoc]
    generalize uploadRun N toLowerCase isLoading es = r at ih ⊢
    obtain ⟨h1, h2⟩ := ih
    cases e with
    | selectFile file =>
      simp only [uploadStep]
      split
      · exact ⟨h1, h2⟩
      · refine ⟨h1, ?_⟩
        cases file <;> exact h2
    | clickUpload =>
      simp only [uploadStep]
      split
      · exact ⟨h1, h2⟩
      · next hg =>
        have hu : r.state.uploading = false := by
          cases h : r.state.uploading with
          | false => rfl
          | true => simp [h] at hg
        have hp : r.pending = 0 := by
          rw [hu] at h2
          have := of_decide_eq_false h2.symm
          omega
        rcases handleUpload_cases toLowerCase r.state with ⟨_, h⟩ | ⟨f, _, _, h⟩ |
            ⟨f, _, _, _, h⟩ | ⟨f, _, _, _, h⟩
        · rw [h]; exact ⟨h1, by simpa using h2⟩
        · rw [h]; exact ⟨h1, by simpa using h2⟩
        · rw [h]; exact ⟨h1, by simpa using h2⟩
        · rw [h]; simp [hp]
    | settled o =>
      simp only [uploadStep]
      split
      · exact ⟨h1, h2⟩
      · next hne =>
        have hp : r.pending = 1 := by omega
        cases o with
        | resolved response thrown =>
          cases thrown <;> simp [Upload.settled, hp]
        | rejected error => simp [Upload.settled, hp]

/-! ## `Upload.handleUpload`: claims C13, C14 and C15 -/

/-- C13 (as stated) fails twice: a PDF of exactly `50 * 1024 * 1024` bytes is
passed to `uploadPDF` although its size is not strictly less than the limit;
and a text file of 60 MB is rejected by the type check, which comes first,
with the type error rather than the size error. -/
theorem upload_size_boundary_and_type_first :
    (Upload.handleUpload asciiLowerCase (uploadWith sampleFile50MB)).2 = some sampleFile50MB ∧
    sampleFile50MB.size = 50 * 1024 * 1024 ∧
    50 * 1024 * 1024 ≤ sampleBigText.size ∧
    (Upload.handleUpload asciiLowerCase (uploadWith sampleBigText)).1.error =
      JsonValue.str (js "Please upload a valid PDF file") ∧
    js "Please upload a valid PDF file" ≠ js "File size must be less than 50MB" :=
  ⟨by decide, by decide, by decide, rfl, by decide⟩

/-- C13 (amended): no file larger than `50 * 1024 * 1024` bytes is passed to
`uploadPDF`, by one call of `handleUpload` or along any sequence of events of
the component, and every selected file that passes the type check and is
larger than that is rejected with the error `File size must be less than
50MB`. -/
theorem uploaded_file_size_bounded (N : NumberSemantics) (toLowerCase : JsString → JsString)
    (isLoading : Bool) (st : UploadState) (file : File) (es : List UploadEvent) :
    maxFileSize = 52428800 ∧
    ((Upload.handleUpload toLowerCase st).2 = some file → file.size ≤ maxFileSize) ∧
    (file ∈ (uploadRun N toLowerCase isLoading es).uploaded → file.size ≤ maxFileSize) ∧
    (st.inputFile = some file → failsTypeCheck toLowerCase file = false →
      maxFileSize < file.size →
      (Upload.handleUpload toLowerCase st).2 = none ∧
      (Upload.handleUpload toLowerCase st).1.error =
        JsonValue.str (js "File size must be less than 50MB")) := by
  have hcall : ∀ (s : UploadState) (f : File),
      (Upload.handleUpload toLowerCase s).2 = some f → f.size ≤ maxFileSize := by
    intro s f hf
    rcases handleUpload_cases toLowerCase s with ⟨_, h⟩ | ⟨g, _, _, h⟩ | ⟨g, _, _, _, h⟩ |
        ⟨g, _, _, hs, h⟩
    · rw [h] at hf; cases hf
    · rw [h] at hf; cases hf
    · rw [h] at hf; cases hf
    · rw [h] at hf
      cases hf
      exact hs
  refine ⟨rfl, hcall st file, ?_, ?_⟩
  · induction es using List.reverseRecOn with
    | nil => intro h; cases h
    | append_singleton xs x ih =>
      rw [uploadRun_snoc]
      intro hmem
      rcases uploadStep_uploaded N toLowerCase isLoading (uploadRun N toLowerCase isLoading xs) x
        with h | ⟨g, hg, h⟩
      · rw [h] at hmem; exact ih hmem
      · rw [h] at hmem
        rcases List.mem_append.mp hmem with hm | hm
        · exact ih hm
        · have : file = g := by simpa using hm
          subst this
          exact hcall _ _ hg
  · intro hsel htype hsize
    rcases handleUpload_cases toLowerCase st with ⟨hn, _⟩ | ⟨g, hg, ht, _⟩ | ⟨g, hg, _, _, h⟩ |
        ⟨g, hg, _, hs, _⟩
    · rw [hn] at hsel; cases hsel
    · rw [hg] at hsel; cases hsel; rw [ht] at htype; cases htype
    · rw [h]; exact ⟨rfl, rfl⟩
    · rw [hg] at hsel; cases hsel; omega

/-- Witness of C13 (amended): a PDF of 60 MB is rejected with the size error. -/
theorem uploaded_file_size_bounded_witness :
    (Upload.handleUpload asciiLowerCase (uploadWith sampleBigPdf)).2 = none ∧
    (Upload.handleUpload asciiLowerCase (uploadWith sampleBigPdf)).1.error =
      JsonValue.str (js "File size must be less than 50MB") :=
  (uploaded_file_size_bounded plainNumbers asciiLowerCase false (uploadWith sampleBigPdf)
    sampleBigPdf []).2.2.2 rfl (by decide) (by decide)

/-- C14: a selected file is rejected with `Please upload a valid PDF file` (the
error is set to it and `uploadPDF` is not called) if and only if its MIME type
does not contain `pdf` and its lower-cased name does not end with `.pdf`; the
type check comes before the size check: a file that fails it gets the type
error whatever its size. -/
theorem upload_type_check (toLowerCase : JsString → JsString) (st : UploadState) (file : File)
    (h : st.inputFile = some file) :
    (((Upload.handleUpload toLowerCase st).1.error =
        JsonValue.str (js "Please upload a valid PDF file") ∧
        (Upload.handleUpload toLowerCase st).2 = none) ↔
      (includes file.type (js "pdf") = false ∧
        endsWith (toLowerCase file.name) (js ".pdf") = false)) ∧
    (failsTypeCheck toLowerCase file = true →
      ∀ size : Nat,
        (Upload.handleUpload toLowerCase
          { st with inputFile := some { file with size := size } }).1.error =
          JsonValue.str (js "Please upload a valid PDF file")) := by
  have hiff : failsTypeCheck toLowerCase file = true ↔
      (includes file.type (js "pdf") = false ∧
        endsWith (toLowerCase file.name) (js ".pdf") = false) := by
    unfold failsTypeCheck
    cases includes file.type (js "pdf") <;>
      cases endsWith (toLowerCase file.name) (js ".pdf") <;> simp
  constructor
  · rw [← hiff]
    rcases handleUpload_cases toLowerCase st with ⟨hn, _⟩ | ⟨g, hg, ht, hr⟩ | ⟨g, hg, ht, _, hr⟩ |
        ⟨g, hg, ht, _, hr⟩
    · rw [hn] at h; cases h
    · rw [hg] at h; cases h
      rw [hr]
      exact ⟨fun _ => ht, fun _ => ⟨rfl, rfl⟩⟩
    · rw [hg] at h; cases h
      rw [hr, ht]
      constructor
      · intro hc
        have he : js "File size must be less than 50MB" = js "Please upload a valid PDF file" :=
          JsonValue.str.inj hc.1
        exact absurd he (by decide)
      · intro hc; cases hc
    · rw [hg] at h; cases h
      rw [hr, ht]
      constructor
      · intro hc; cases hc.2
      · intro hc; cases hc
  · intro ht size
    have ht2 : failsTypeCheck toLowerCase { file with size := size } = true := ht
    simp only [Upload.handleUpload, ht2, if_true]

/-- Witness of C14: a text file is rejected with the type error, a file named
`SCAN.PDF` with an empty MIME type is not. -/
theorem upload_type_check_witness :
    (Upload.handleUpload asciiLowerCase (uploadWith sampleBigText)).1.error =
      JsonValue.str (js "Please upload a valid PDF file") ∧
    (Upload.handleUpload asciiLowerCase (uploadWith sampleBigText)).2 = none ∧
    failsTypeCheck asciiLowerCase sampleBigPdf = false :=
  ⟨((upload_type_check asciiLowerCase (uploadWith sampleBigText) sampleBigText rfl).1.mpr
      ⟨by decide, by decide⟩).1,
   ((upload_type_check asciiLowerCase (uploadWith sampleBigText) sampleBigText rfl).1.mpr
      ⟨by decide, by decide⟩).2, by decide⟩

theorem uploadErrorMessage_eq (N : NumberSemantics) (error : AskError) :
    uploadErrorMessage N error =
      if truthyOpt N (responseDetail error) then
        match responseDetail error with
        | some d => d
        | none => JsonValue.str (js "Failed to upload PDF. Please try again.")
      else
        match error.message with
        | c :: cs => JsonValue.str (c :: cs)
        | [] => JsonValue.str (js "Failed to upload PDF. Please try again.") := rfl

theorem uploadErrorMessage_cases (N : NumberSemantics) (error : AskError) :
    (∀ d, responseDetail error = some d → jsTruthy N d = true →
      uploadErrorMessage N error = d) ∧
    (truthyOpt N (responseDetail error) = false → error.message ≠ [] →
      uploadErrorMessage N error = JsonValue.str error.message) ∧
    (truthyOpt N (responseDetail error) = false → error.message = [] →
      uploadErrorMessage N error =
        JsonValue.str (js "Failed to upload PDF. Please try again.")) ∧
    ((∀ d, responseDetail error = some d → jsTruthy N d = true → ∃ s, d = JsonValue.str s) →
      ∃ c cs, uploadErrorMessage N error = JsonValue.str (c :: cs)) := by
  have h1 : ∀ d, responseDetail error = some d → jsTruthy N d = true →
      uploadErrorMessage N error = d := by
    intro d hd ht
    have htr : truthyOpt N (responseDetail error) = true := by rw [hd]; exact ht
    rw [uploadErrorMessage_eq, htr, hd]
    rfl
  have h2 : truthyOpt N (responseDetail error) = false → error.message ≠ [] →
      uploadErrorMessage N error = JsonValue.str error.message := by
    intro hf hne
    rw [uploadErrorMessage_eq, hf]
    cases hm : error.message with
    | nil => exact absurd hm hne
    | cons c cs => rfl
  have h3 : truthyOpt N (responseDetail error) = false → error.message = [] →
      uploadErrorMessage N error =
        JsonValue.str (js "Failed to upload PDF. Please try again.") := by
    intro hf hnil
    rw [uploadErrorMessage_eq, hf, hnil]
    rfl
  refine ⟨h1, h2, h3, ?_⟩
  intro hstr
  cases htr : truthyOpt N (responseDetail error) with
  | true =>
    cases hd : responseDetail error with
    | none => rw [hd] at htr; cases htr
    | some d =>
      have ht : jsTruthy N d = true := by rw [hd] at htr; exact htr
      obtain ⟨s, rfl⟩ := hstr d hd ht
      rw [h1 _ hd ht]
      cases s with
      | nil => cases ht
      | cons c cs => exact ⟨c, cs, rfl⟩
  | false =>
    cases hm : error.message with
    | nil =>
      rw [h3 htr hm]
      exact ⟨_, _, rfl⟩
    | cons c cs =>
      have hne : error.message ≠ [] := by rw [hm]; exact List.cons_ne_nil c cs
      rw [h2 htr hne, hm]
      exact ⟨c, cs, rfl⟩

/-- C15 (as stated) fails: an upload of the sample PDF that the server refuses
with the empty list as `detail` leaves `error` set to that list, which is
truthy but is not a message and whose text is empty. -/
theorem upload_error_empty_list :
    (Upload.handleUpload asciiLowerCase (uploadWith samplePdf)).2 = some samplePdf ∧
    (Upload.settled plainNumbers (Upload.handleUpload asciiLowerCase (uploadWith samplePdf)).1
      (UploadSettle.rejected sampleEmptyDetailError)).1.error = JsonValue.arr [] ∧
    jsToString plainNumbers (JsonValue.arr []) = some [] :=
  ⟨by decide, rfl, rfl⟩

/-- C15 (amended): `uploadPDF` is called, at most once per call of
`handleUpload`, only with the selected file and only when it passes the type
and size checks; `onUploadSuccess` is called exactly when `uploadPDF` resolves,
with the resolved response; a validation failure sets `error` to one of three
fixed non-empty messages and leaves `uploading` as it was; an upload failure
(`uploadPDF` throws, or `onUploadSuccess` throws) sets `uploading` to false and
`error` to the first truthy of `error.response.data.detail`, `error.message`
and `Failed to upload PDF. Please try again.`, stored as it is: a truthy value,
and a non-empty string whenever `detail` is falsy or a string; and along every
sequence of events of the component at most one call is pending and
`uploading` is true exactly while one is, so it is false whenever
`handleUpload` has finished. -/
theorem upload_calls_and_errors (N : NumberSemantics) (toLowerCase : JsString → JsString)
    (isLoading : Bool) (st : UploadState) (es : List UploadEvent) :
    (∀ file, (Upload.handleUpload toLowerCase st).2 = some file →
      st.inputFile = some file ∧ failsTypeCheck toLowerCase file = false ∧
      file.size ≤ maxFileSize) ∧
    (∀ response thrown,
      (Upload.settled N st (UploadSettle.resolved response thrown)).2 = some response) ∧
    (∀ error, (Upload.settled N st (UploadSettle.rejected error)).2 = none) ∧
    ((Upload.handleUpload toLowerCase st).2 = none →
      ((Upload.handleUpload toLowerCase st).1.error = JsonValue.str (js "Please select a PDF file") ∨
        (Upload.handleUpload toLowerCase st).1.error =
          JsonValue.str (js "Please upload a valid PDF file") ∨
        (Upload.handleUpload toLowerCase st).1.error =
          JsonValue.str (js "File size must be less than 50MB")) ∧
      jsTruthy N (Upload.handleUpload toLowerCase st).1.error = true ∧
      (Upload.handleUpload toLowerCase st).1.uploading = st.uploading) ∧
    (∀ error,
      (Upload.settled N st (UploadSettle.rejected error)).1.uploading = false ∧
      jsTruthy N (Upload.settled N st (UploadSettle.rejected error)).1.error = true ∧
      (∀ d, responseDetail error = some d → jsTruthy N d = true →
        (Upload.settled N st (UploadSettle.rejected error)).1.error = d) ∧
      (truthyOpt N (responseDetail error) = false → error.message ≠ [] →
        (Upload.settled N st (UploadSettle.rejected error)).1.error =
          JsonValue.str error.message) ∧
      (truthyOpt N (responseDetail error) = false → error.message = [] →
        (Upload.settled N st (UploadSettle.rejected error)).1.error =
          JsonValue.str (js "Failed to upload PDF. Please try again.")) ∧
      ((∀ d, responseDetail error = some d → jsTruthy N d = true → ∃ s, d = JsonValue.str s) →
        ∃ c cs, (Upload.settled N st (UploadSettle.rejected error)).1.error =
          JsonValue.str (c :: cs))) ∧
    (∀ response error,
      (Upload.settled N st (UploadSettle.resolved response (some error))).1.uploading = false ∧
      jsTruthy N (Upload.settled N st (UploadSettle.resolved response (some error))).1.error
        = true ∧
      (∀ d, responseDetail error = some d → jsTruthy N d = true →
        (Upload.settled N st (UploadSettle.resolved response (some error))).1.error = d) ∧
      (truthyOpt N (responseDetail error) = false → error.message ≠ [] →
        (Upload.settled N st (UploadSettle.resolved response (some error))).1.error =
          JsonValue.str error.message) ∧
      (truthyOpt N (responseDetail error) = false → error.message = [] →
        (Upload.settled N st (UploadSettle.resolved response (some error))).1.error =
          JsonValue.str (js "Failed to upload PDF. Please try again.")) ∧
      ((∀ d, responseDetail error = some d → jsTruthy N d = true → ∃ s, d = JsonValue.str s) →
        ∃ c cs, (Upload.settled N st (UploadSettle.resolved response (some error))).1.error =
          JsonValue.str (c :: cs))) ∧
    (∀ response,
      (Upload.settled N st (UploadSettle.resolved response none)).1.uploading = false ∧
      (Upload.settled N st (UploadSettle.resolved response none)).1.error = st.error) ∧
    (uploadRun N toLowerCase isLoading es).pending ≤ 1 ∧
    ((uploadRun N toLowerCase isLoading es).pending = 0 →
      (uploadRun N toLowerCase isLoading es).state.uploading = false) := by
  refine ⟨?_, fun response thrown => ?_, fun _ => rfl, ?_, fun error => ?_, fun response error => ?_,
    fun _ => ⟨rfl, rfl⟩, (uploadRun_invariant N toLowerCase isLoading es).1, ?_⟩
  · intro file hf
    rcases handleUpload_cases toLowerCase st with ⟨_, h⟩ | ⟨g, _, _, h⟩ | ⟨g, _, _, _, h⟩ |
        ⟨g, hg, ht, hs, h⟩
    · rw [h] at hf; cases hf
    · rw [h] at hf; cases hf
    · rw [h] at hf; cases hf
    · rw [h] at hf
      cases hf
      exact ⟨hg, ht, hs⟩
  · cases thrown <;> rfl
  · intro hnone
    rcases handleUpload_cases toLowerCase st with ⟨_, h⟩ | ⟨g, _, _, h⟩ | ⟨g, _, _, _, h⟩ |
        ⟨g, _, _, _, h⟩
    · rw [h]; exact ⟨Or.inl rfl, rfl, rfl⟩
    · rw [h]; exact ⟨Or.inr (Or.inl rfl), rfl, rfl⟩
    · rw [h]; exact ⟨Or.inr (Or.inr rfl), rfl, rfl⟩
    · rw [h] at hnone; cases hnone
  · have hc := uploadErrorMessage_cases N error
    have he : (Upload.settled N st (UploadSettle.rejected error)).1.error =
        uploadErrorMessage N error := rfl
    rw [he]
    exact ⟨rfl, uploadErrorMessage_truthy N error, hc.1, hc.2.1, hc.2.2.1, hc.2.2.2⟩
  · have hc := uploadErrorMessage_cases N error
    have he : (Upload.settled N st (UploadSettle.resolved response (some error))).1.error =
        uploadErrorMessage N error := rfl
    rw [he]
    exact ⟨rfl, uploadErrorMessage_truthy N error, hc.1, hc.2.1, hc.2.2.1, hc.2.2.2⟩
  · intro hp
    rw [(uploadRun_invariant N toLowerCase isLoading es).2, hp]
    rfl

/-- Witness of C15 (amended): selecting the 60 MB text file and clicking upload
calls nothing and leaves `uploading` false with the type error shown; and an
upload refused with the string detail `Session not found` shows that string. -/
theorem upload_calls_and_errors_witness :
    (Upload.handleUpload asciiLowerCase (uploadWith sampleBigText)).2 = none ∧
    jsTruthy plainNumbers (Upload.handleUpload asciiLowerCase (uploadWith sampleBigText)).1.error
      = true ∧
    (Upload.handleUpload asciiLowerCase (uploadWith sampleBigText)).1.uploading = false ∧
    (Upload.settled plainNumbers (uploadWith samplePdf)
      (UploadSettle.rejected sampleNotFoundError)).1.error =
      JsonValue.str (js "Session not found") :=
  ⟨by decide,
   ((upload_calls_and_errors plainNumbers asciiLowerCase false (uploadWith sampleBigText)
      []).2.2.2.1 (by decide)).2.1,
   ((upload_calls_and_errors plainNumbers asciiLowerCase false (uploadWith sampleBigText)
      []).2.2.2.1 (by decide)).2.2,
   ((upload_calls_and_errors plainNumbers asciiLowerCase false (uploadWith samplePdf)
      []).2.2.2.2.1 sampleNotFoundError).2.2.1 (JsonValue.str (js "Session not found")) rfl rfl⟩

/-! ## `askQuestion`: claim C16 -/

/-- C16 (as stated) fails: for a failed request whose `detail` is a list with
one object, the first truthy value is that list, but the message of the thrown
error is the string `[object Object]`. -/
theorem askQuestion_message_is_converted :
    askQuestionErrorMessage plainNumbers sampleValidationError =
      JsonValue.arr [JsonValue.obj [(js "msg", JsonValue.str (js "field required"))]] ∧
    askQuestionSettled plainNumbers (PostSettle.rejected sampleValidationError) =
      Except.error (Thrown.customError
        { message := js "[object Object]", response := sampleValidationError.response }) :=
  ⟨rfl, rfl⟩

/-- C16 (amended): on any request failure `askQuestion` returns no value but
throws; the value it converts is the first truthy of
`error.response.data.detail`, `error.response.data.message`, `error.message`,
and otherwise `Failed to process question. Please try again.`; when that value
converts to a string (always when it is a string, and then to itself) the
thrown error has that string as message and the original error's `response`. -/
theorem askQuestion_throws_custom_error (N : NumberSemantics) (error : AskError) :
    askQuestionSettled N (PostSettle.rejected error) = Except.error (askQuestionCatch N error) ∧
    (∀ m, jsToString N (askQuestionErrorMessage N error) = some m →
      askQuestionCatch N error =
        Thrown.customError { message := m, response := error.response }) ∧
    (∀ s, askQuestionErrorMessage N error = JsonValue.str s →
      askQuestionCatch N error =
        Thrown.customError { message := s, response := error.response }) ∧
    (∀ d, responseDetail error = some d → jsTruthy N d = true →
      askQuestionErrorMessage N error = d) ∧
    (truthyOpt N (responseDetail error) = false →
      ∀ m, responseMessage error = some m → jsTruthy N m = true →
        askQuestionErrorMessage N error = m) ∧
    (truthyOpt N (responseDetail error) = false →
      truthyOpt N (responseMessage error) = false → error.message ≠ [] →
        askQuestionErrorMessage N error = JsonValue.str error.message) ∧
    (truthyOpt N (responseDetail error) = false →
      truthyOpt N (responseMessage error) = false → error.message = [] →
        askQuestionErrorMessage N error =
          JsonValue.str (js "Failed to process question. Please try again.")) := by
  have hlast : ∀ msg : JsString, msg ≠ [] →
      (match msg with
        | c :: cs => JsonValue.str (c :: cs)
        | [] => JsonValue.str (js "Failed to process question. Please try again.")) =
        JsonValue.str msg := by
    intro msg hm
    cases msg with
    | nil => exact absurd rfl hm
    | cons c cs => rfl
  refine ⟨rfl, ?_, ?_, ?_, ?_, ?_, ?_⟩
  · intro m hm
    simp only [askQuestionCatch, hm]
  · intro s hs
    simp only [askQuestionCatch, hs, jsToString]
  · intro d hd ht
    simp only [askQuestionErrorMessage, hd, ht, if_true]
  · intro hdet m hm ht
    unfold askQuestionErrorMessage
    cases hd : responseDetail error with
    | none => simp only [hm, ht, if_true]
    | some d =>
      rw [hd] at hdet
      have hdf : jsTruthy N d = false := hdet
      simp only [hdf, hm, ht, if_true, Bool.false_eq_true, if_false]
  · intro hdet hmsg hne
    unfold askQuestionErrorMessage
    cases hd : responseDetail error with
    | none =>
      cases hm : responseMessage error with
      | none => exact hlast _ hne
      | some m =>
        rw [hm] at hmsg
        have hmf : jsTruthy N m = false := hmsg
        simp only [hmf, Bool.false_eq_true, if_false]
        exact hlast _ hne
    | some d =>
      rw [hd] at hdet
      have hdf : jsTruthy N d = false := hdet
      cases hm : responseMessage error with
      | none =>
        simp only [hdf, Bool.false_eq_true, if_false]
        exact hlast _ hne
      | some m =>
        rw [hm] at hmsg
        have hmf : jsTruthy N m = false := hmsg
        simp only [hdf, hmf, Bool.false_eq_true, if_false]
        exact hlast _ hne
  · intro hdet hmsg hnil
    unfold askQuestionErrorMessage
    cases hd : responseDetail error with
    | none =>
      cases hm : responseMessage error with
      | none => simp only [hnil]
      | some m =>
        rw [hm] at hmsg
        have hmf : jsTruthy N m = false := hmsg
        simp only [hmf, Bool.false_eq_true, if_false, hnil]
    | some d =>
      rw [hd] at hdet
      have hdf : jsTruthy N d = false := hdet
      cases hm : responseMessage error with
      | none => simp only [hdf, Bool.false_eq_true, if_false, hnil]
      | some m =>
        rw [hm] at hmsg
        have hmf : jsTruthy N m = false := hmsg
        simp only [hdf, hmf, Bool.false_eq_true, if_false, hnil]

/-- Witness of C16 (amended): a failure with the string detail `Session not
found` throws an error with that message and the same response. -/
theorem askQuestion_throws_custom_error_witness :
    askQuestionCatch plainNumbers sampleNotFoundError =
      Thrown.customError
        { message := js "Session not found", response := sampleNotFoundError.response } :=
  (askQuestion_throws_custom_error plainNumbers sampleNotFoundError).2.2.1
    (js "Session not found") rfl

end SmartDoc
